import Mathlib

/-!
Verification development for the soltrace event indexer.

This file gives a shallow embedding, in Lean 4, of the parts of the
soltrace Rust sources that the specification's claims are about:

- `soltrace-core/src/idl.rs` (event discriminators, IDL registry lookup),
- `soltrace-core/src/idl_event.rs` (the IDL-driven borsh event decoder),
- `soltrace-core/src/event.rs` (the decode orchestrator with hex fallback),
- `soltrace-core/src/utils.rs` (log-line event extraction),
- `soltrace-core/src/db/sqlite.rs` (the sqlite insert path),
- `soltrace-core/src/retry.rs` (the rate-limit-aware retry wrapper),
- `soltrace-live/src/main.rs` (the websocket reconnect loop).

Strings are modelled as `List Char`, byte buffers as `List Nat` (each
element standing for one `u8`), machine integers as `Nat`/`Int` with
explicit `% 2 ^ 64` where Rust release-mode wrapping matters, and JSON
values (`serde_json::Value`) as the inductive `Json` below.  Fallible Rust
functions returning `Result<T, SoltraceError>` are modelled as
`Except (List Char) T` carrying the error message text, because the source
uses a single `SoltraceError::EventDecode(String)`-style constructor with a
formatted message for each failure.
-/

/-! Basic helpers over lists of characters and bytes. -/

/-- Rust `str::to_lowercase` (ASCII fragment; the source strings compared
against are ASCII). -/
def toLowerL (s : List Char) : List Char := s.map Char.toLower

/-- Rust `str::contains(needle)`: substring search. -/
def containsSub (hay needle : List Char) : Bool :=
  if needle.isPrefixOf hay then true
  else
    match hay with
    | [] => false
    | _ :: rest => containsSub rest needle

/-- Rust `str::strip_prefix(p)`: `Some` of the remainder when `p` is a
prefix, `None` otherwise. -/
def stripPrefixL (p l : List Char) : Option (List Char) :=
  if p.isPrefixOf l then some (l.drop p.length) else none

/-- ASCII whitespace per Rust `char::is_whitespace` (restricted to the
ASCII range, which is all that occurs around base64 payloads in logs). -/
def isWsChar (c : Char) : Bool :=
  c = ' ' || c = '\t' || c = '\n' || c = '\r' || c = Char.ofNat 11 || c = Char.ofNat 12

/-- Rust `str::trim`: drop whitespace from both ends. -/
def rustTrim (l : List Char) : List Char :=
  (((l.dropWhile isWsChar).reverse).dropWhile isWsChar).reverse

/-- Decimal rendering of a natural number, as Rust `u64::to_string` /
`usize::to_string` produce it. -/
def natToDec (n : Nat) : List Char := Nat.toDigits 10 n

/-- Decimal rendering of an integer, as Rust `i128::to_string` produces
it. -/
def intToDec (i : Int) : List Char :=
  if i < 0 then '-' :: natToDec i.natAbs else natToDec i.toNat

/-- Little-endian byte list to natural number (mirrors
`u128::from_le_bytes` after zero-extension in `read_le_bytes`). -/
def leNat (bs : List Nat) : Nat := bs.foldr (fun b acc => b + 256 * acc) 0

/-- Upper-case hex digit for a value below 16. -/
def hexDigitU (n : Nat) : Char :=
  if n < 10 then Char.ofNat (48 + n) else Char.ofNat (55 + n)

/-- Lower-case hex digit for a value below 16. -/
def hexDigitL (n : Nat) : Char :=
  if n < 10 then Char.ofNat (48 + n) else Char.ofNat (87 + n)

/-- Rust `hex::encode_upper`: two upper-case hex digits per byte. -/
def hexUpper (bs : List Nat) : List Char :=
  bs.foldr (fun b acc => hexDigitU (b / 16 % 16) :: hexDigitU (b % 16) :: acc) []

/-- Rust `hex::encode`: two lower-case hex digits per byte. -/
def hexLower (bs : List Nat) : List Char :=
  bs.foldr (fun b acc => hexDigitL (b / 16 % 16) :: hexDigitL (b % 16) :: acc) []

/-- Rust `usize::from_str` as used by `parts[1].trim().parse::<usize>()`:
an optional leading `+`, then one or more ASCII digits, rejecting values
beyond `usize::MAX` (64-bit). -/
def parseUsize (s : List Char) : Option Nat :=
  let digits := match s with
    | '+' :: rest => rest
    | _ => s
  if digits.isEmpty then none
  else if digits.all Char.isDigit then
    let v := digits.foldl (fun acc c => acc * 10 + (c.toNat - 48)) 0
    if v ≤ 18446744073709551615 then some v else none
  else none

/-! The JSON document model (`serde_json::Value`). -/

/-- A `serde_json::Value`.  Numbers that the decoder produces are always
integers representable in `u64`/`i64`, so `num` carries an `Int`. -/
inductive Json where
  | null : Json
  | boolean (b : Bool) : Json
  | num (n : Int) : Json
  | str (s : List Char) : Json
  | arr (xs : List Json) : Json
  | obj (kvs : List (List Char × Json)) : Json

mutual

/-- Structural size of a `Json` value, used as the termination measure of
the decoder: string leaves weigh their length plus two so that a type
string extracted from inside a value is always strictly smaller than the
value. -/
def jsonSize : Json → Nat
  | .null => 1
  | .boolean _ => 1
  | .num _ => 1
  | .str s => s.length + 2
  | .arr xs => 1 + jsonListSize xs
  | .obj kvs => 1 + kvsSize kvs

/-- Size of a list of `Json` values. -/
def jsonListSize : List Json → Nat
  | [] => 0
  | x :: xs => jsonSize x + jsonListSize xs

/-- Size of the key-value list of a JSON object. -/
def kvsSize : List (List Char × Json) → Nat
  | [] => 0
  | (k, v) :: rest => k.length + jsonSize v + 1 + kvsSize rest

end

/-- Key lookup in a JSON object's key-value list (`serde_json::Map::get`;
the map is modelled as an association list with the first binding of a key
winning). -/
def kvLookup : List (List Char × Json) → List Char → Option Json
  | [], _ => none
  | (k, v) :: rest, key => if k = key then some v else kvLookup rest key

/-- `serde_json::Value::get(key)`: `Some` only on objects that bind the
key. -/
def jGet (j : Json) (key : List Char) : Option Json :=
  match j with
  | .obj kvs => kvLookup kvs key
  | _ => none

/-- Insert into the decoded-result map (`serde_json::Map::insert`): a later
binding for an existing key replaces the earlier one; fresh keys are
appended.  (The Rust map is a `BTreeMap`; its key ordering is immaterial to
every claim, which only ever looks bindings up or compares objects whose
keys are already sorted.) -/
def mapInsert : List (List Char × Json) → List Char → Json → List (List Char × Json)
  | [], key, v => [(key, v)]
  | (k, w) :: rest, key, v =>
    if k = key then (k, v) :: rest else (k, w) :: mapInsert rest key v

/-! UTF-8 (Rust `str::as_bytes` / `String::from_utf8`). -/

/-- UTF-8 encoding of one scalar value. -/
def utf8EncodeChar (c : Char) : List Nat :=
  let n := c.toNat
  if n < 128 then [n]
  else if n < 2048 then [192 + n / 64, 128 + n % 64]
  else if n < 65536 then [224 + n / 4096, 128 + n / 64 % 64, 128 + n % 64]
  else [240 + n / 262144, 128 + n / 4096 % 64, 128 + n / 64 % 64, 128 + n % 64]

/-- UTF-8 encoding of a string (`str::as_bytes`). -/
def utf8Encode (s : List Char) : List Nat :=
  s.foldr (fun c acc => utf8EncodeChar c ++ acc) []

/-- Strict UTF-8 decoding (`String::from_utf8`): rejects overlong forms,
surrogates, and out-of-range scalars, exactly as Rust does. -/
def utf8Decode : List Nat → Option (List Char)
  | [] => some []
  | b :: rest =>
    if b < 128 then (utf8Decode rest).map (Char.ofNat b :: ·)
    else if b < 194 then none
    else if b < 224 then
      match rest with
      | b1 :: rest' =>
        if 128 ≤ b1 ∧ b1 < 192 then
          (utf8Decode rest').map (Char.ofNat ((b - 192) * 64 + (b1 - 128)) :: ·)
        else none
      | _ => none
    else if b < 240 then
      match rest with
      | b1 :: b2 :: rest' =>
        let lo1 := if b = 224 then 160 else 128
        let hi1 := if b = 237 then 159 else 191
        if lo1 ≤ b1 ∧ b1 ≤ hi1 ∧ 128 ≤ b2 ∧ b2 < 192 then
          (utf8Decode rest').map
            (Char.ofNat ((b - 224) * 4096 + (b1 - 128) * 64 + (b2 - 128)) :: ·)
        else none
      | _ => none
    else if b < 245 then
      match rest with
      | b1 :: b2 :: b3 :: rest' =>
        let lo1 := if b = 240 then 144 else 128
        let hi1 := if b = 244 then 143 else 191
        if lo1 ≤ b1 ∧ b1 ≤ hi1 ∧ 128 ≤ b2 ∧ b2 < 192 ∧ 128 ≤ b3 ∧ b3 < 192 then
          (utf8Decode rest').map
            (Char.ofNat ((b - 240) * 262144 + (b1 - 128) * 4096 + (b2 - 128) * 64 + (b3 - 128)) :: ·)
        else none
      | _ => none
    else none

/-! SHA-256 (the hash behind `anchor_lang::solana_program::hash::hash`,
used by `IdlParser::calculate_discriminator`). -/

/-- Big-endian byte rendering of a value in a fixed number of bytes. -/
def beBytes : Nat → Nat → List Nat
  | 0, _ => []
  | w + 1, v => beBytes w (v / 256) ++ [v % 256]

/-- Right rotation of a 32-bit word. -/
def rotr32 (w n : Nat) : Nat := ((w >>> n) ||| (w <<< (32 - n))) % 2 ^ 32

/-- The SHA-256 round constants. -/
def shaK : List Nat :=
  [1116352408, 1899447441, 3049323471, 3921009573, 961987163, 1508970993,
   2453635748, 2870763221, 3624381080, 310598401, 607225278, 1426881987,
   1925078388, 2162078206, 2614888103, 3248222580, 3835390401, 4022224774,
   264347078, 604807628, 770255983, 1249150122, 1555081692, 1996064986,
   2554220882, 2821834349, 2952996808, 3210313671, 3336571891, 3584528711,
   113926993, 338241895, 666307205, 773529912, 1294757372, 1396182291,
   1695183700, 1986661051, 2177026350, 2456956037, 2730485921, 2820302411,
   3259730800, 3345764771, 3516065817, 3600352804, 4094571909, 275423344,
   430227734, 506948616, 659060556, 883997877, 958139571, 1322822218,
   1537002063, 1747873779, 1955562222, 2024104815, 2227730452, 2361852424,
   2428436474, 2756734187, 3204031479, 3329325298]

/-- The SHA-256 working state: eight 32-bit words. -/
structure Sha256State where
  s0 : Nat
  s1 : Nat
  s2 : Nat
  s3 : Nat
  s4 : Nat
  s5 : Nat
  s6 : Nat
  s7 : Nat

/-- The SHA-256 initial hash value. -/
def shaInit : Sha256State :=
  ⟨1779033703, 3144134277, 1013904242, 2773480762, 1359893119, 2600822924, 528734635, 1541459225⟩

/-- SHA-256 padding: append `0x80`, zeros to 56 mod 64, then the bit
length as a 64-bit big-endian integer. -/
def shaPad (msg : List Nat) : List Nat :=
  let len := msg.length
  let k := (119 - len % 64) % 64
  msg ++ 128 :: List.replicate k 0 ++ beBytes 8 (8 * len % 2 ^ 64)

/-- Group bytes into big-endian 32-bit words. -/
def bytesToWordsBE : List Nat → List Nat
  | b0 :: b1 :: b2 :: b3 :: rest =>
    (b0 * 16777216 + b1 * 65536 + b2 * 256 + b3) :: bytesToWordsBE rest
  | _ => []

/-- Message-schedule extension: append `count` further words to `ws`. -/
def shaExtend (ws : List Nat) : Nat → List Nat
  | 0 => ws
  | k + 1 =>
    let i := ws.length
    let s0 := rotr32 (ws.getD (i - 15) 0) 7 ^^^ rotr32 (ws.getD (i - 15) 0) 18 ^^^ (ws.getD (i - 15) 0 >>> 3)
    let s1 := rotr32 (ws.getD (i - 2) 0) 17 ^^^ rotr32 (ws.getD (i - 2) 0) 19 ^^^ (ws.getD (i - 2) 0 >>> 10)
    let w := (ws.getD (i - 16) 0 + s0 + ws.getD (i - 7) 0 + s1) % 2 ^ 32
    shaExtend (ws ++ [w]) k

/-- One SHA-256 compression round. -/
def shaRound (st : Sha256State) (ki wi : Nat) : Sha256State :=
  let e1 := rotr32 st.s4 6 ^^^ rotr32 st.s4 11 ^^^ rotr32 st.s4 25
  let ch := (st.s4 &&& st.s5) ^^^ ((st.s4 ^^^ 4294967295) &&& st.s6)
  let t1 := (st.s7 + e1 + ch + ki + wi) % 2 ^ 32
  let a0 := rotr32 st.s0 2 ^^^ rotr32 st.s0 13 ^^^ rotr32 st.s0 22
  let mj := (st.s0 &&& st.s1) ^^^ (st.s0 &&& st.s2) ^^^ (st.s1 &&& st.s2)
  let t2 := (a0 + mj) % 2 ^ 32
  ⟨(t1 + t2) % 2 ^ 32, st.s0, st.s1, st.s2, (st.s3 + t1) % 2 ^ 32, st.s4, st.s5, st.s6⟩

/-- Compress one 64-byte block into the state. -/
def shaCompressBlock (h : Sha256State) (block : List Nat) : Sha256State :=
  let ws := shaExtend (bytesToWordsBE block) 48
  let st := (shaK.zip ws).foldl (fun st p => shaRound st p.1 p.2) h
  ⟨(h.s0 + st.s0) % 2 ^ 32, (h.s1 + st.s1) % 2 ^ 32, (h.s2 + st.s2) % 2 ^ 32,
   (h.s3 + st.s3) % 2 ^ 32, (h.s4 + st.s4) % 2 ^ 32, (h.s5 + st.s5) % 2 ^ 32,
   (h.s6 + st.s6) % 2 ^ 32, (h.s7 + st.s7) % 2 ^ 32⟩

/-- Fold the compression function over all 64-byte blocks; the fuel is the
byte count, which bounds the number of blocks. -/
def shaBlocks (st : Sha256State) : Nat → List Nat → Sha256State
  | 0, _ => st
  | _ + 1, [] => st
  | f + 1, bytes => shaBlocks (shaCompressBlock st (bytes.take 64)) f (bytes.drop 64)

/-- SHA-256 of a byte string, producing the 32-byte digest. -/
def sha256 (msg : List Nat) : List Nat :=
  let padded := shaPad msg
  let st := shaBlocks shaInit padded.length padded
  beBytes 4 st.s0 ++ beBytes 4 st.s1 ++ beBytes 4 st.s2 ++ beBytes 4 st.s3 ++
  beBytes 4 st.s4 ++ beBytes 4 st.s5 ++ beBytes 4 st.s6 ++ beBytes 4 st.s7

/-! Base58 (the `Display` form of `solana_sdk::pubkey::Pubkey`). -/

/-- The bitcoin base58 alphabet used by Solana. -/
def b58Alphabet : List Char :=
  "123456789ABCDEFGHJKLMNPQRSTUVWXYZabcdefghijkmnopqrstuvwxyz".toList

/-- Digit extraction for base58; fuel is generous, two base58 digits cover
more than one byte. -/
def b58Digits : Nat → Nat → List Char → List Char
  | 0, _, acc => acc
  | _ + 1, 0, acc => acc
  | f + 1, n, acc => b58Digits f (n / 58) (b58Alphabet.getD (n % 58) '1' :: acc)

/-- Base58 encoding of a byte string (leading zero bytes become `1`s). -/
def base58Encode (bs : List Nat) : List Char :=
  let n := bs.foldl (fun acc b => acc * 256 + b) 0
  let digits := if n = 0 then [] else b58Digits (bs.length * 2 + 2) n []
  List.replicate (bs.takeWhile (· = 0)).length '1' ++ digits

/-! The IDL registry (`soltrace-core/src/idl.rs`). -/

/-- `IdlParser::calculate_discriminator`: the first eight bytes of SHA-256
over the literal `event:<event_name>`. -/
def IdlParser.calculate_discriminator (event_name : List Char) : List Nat :=
  (sha256 (utf8Encode ("event:".toList ++ event_name))).take 8

/-! JSON rendering (the `Display` of `serde_json::Value`, used only inside
error message texts; escaping of control characters is abbreviated). -/

/-- Escape quotes and backslashes in a JSON string literal. -/
def jsonEscape (s : List Char) : List Char :=
  s.foldr
    (fun c acc =>
      if c = '"' then '\\' :: '"' :: acc
      else if c = '\\' then '\\' :: '\\' :: acc
      else c :: acc) []

mutual

/-- Compact rendering of a `Json` value. -/
def renderJson : Json → List Char
  | .null => "null".toList
  | .boolean true => "true".toList
  | .boolean false => "false".toList
  | .num n => intToDec n
  | .str s => '"' :: (jsonEscape s ++ ['"'])
  | .arr xs => '[' :: (renderJsonList xs ++ [']'])
  | .obj kvs => Char.ofNat 123 :: (renderKvs kvs ++ [Char.ofNat 125])

/-- Render a comma-separated list of values. -/
def renderJsonList : List Json → List Char
  | [] => []
  | [x] => renderJson x
  | x :: xs => renderJson x ++ ',' :: renderJsonList xs

/-- Render a comma-separated list of key-value pairs. -/
def renderKvs : List (List Char × Json) → List Char
  | [] => []
  | [(k, v)] => '"' :: (jsonEscape k ++ '"' :: ':' :: renderJson v)
  | (k, v) :: rest => '"' :: (jsonEscape k ++ '"' :: ':' :: renderJson v) ++ ',' :: renderKvs rest

end

/-! The IDL event decoder (`soltrace-core/src/idl_event.rs`). -/

/-- An IDL field: a name plus a JSON type expression
(`crate::types::IdlField`, whose `field_type` is a `serde_json::Value`). -/
structure IdlField' where
  name : List Char
  field_type : Json

/-- `IdlEventDecoder::read_le_bytes::<T>`: read `size` little-endian bytes
zero-extended into a `u128`, then convert with `T::try_from`, which fails
above `tmax` (= `T::MAX`).  Because even the signed types go through this
unsigned path, any value with the sign bit set fails the conversion. -/
def read_le_bytes (data : List Nat) (size tmax : Nat) : Except (List Char) (Nat × Nat) :=
  if data.length < size then .error ("Not enough data for integer".toList)
  else
    let value := leNat (data.take size)
    if value ≤ tmax then .ok (value, size)
    else .error ("Integer conversion failed".toList)

/-- `IdlEventDecoder::read_i128`: a genuinely signed 128-bit read. -/
def read_i128 (data : List Nat) : Except (List Char) (Int × Nat) :=
  if data.length < 16 then .error ("Not enough data for i128".toList)
  else
    let n := leNat (data.take 16)
    .ok (if n < 2 ^ 127 then (n : Int) else (n : Int) - 2 ^ 128, 16)

/-- `IdlEventDecoder::decode_string`: u32 little-endian length prefix, then
that many UTF-8 bytes.  (The source interpolates the `FromUtf8Error` into
the message; the message text is abbreviated here.) -/
def decode_string (data : List Nat) : Except (List Char) (List Char × Nat) :=
  if data.length < 4 then .error ("Not enough data for string length".toList)
  else
    let len := leNat (data.take 4)
    if data.length < 4 + len then .error ("Not enough data for string content".toList)
    else
      match utf8Decode ((data.drop 4).take len) with
      | none => .error ("Invalid UTF-8".toList)
      | some s => .ok (s, 4 + len)

/-- `IdlEventDecoder::decode_bytes`: u32 little-endian length prefix, then
raw bytes. -/
def decode_bytes (data : List Nat) : Except (List Char) (List Nat × Nat) :=
  if data.length < 4 then .error ("Not enough data for bytes length".toList)
  else
    let len := leNat (data.take 4)
    if data.length < 4 + len then .error ("Not enough data for bytes content".toList)
    else .ok ((data.drop 4).take len, 4 + len)

/-- The tail of `IdlEventDecoder::decode_complex_type` reached whenever the
`{"array": [T, N]}` shape check fails: try `{"defined": {"name": ...}}`,
else report an unsupported complex type.  (The source renders the map with
`{:?}`; rendering is approximated by `renderJson`.) -/
def complex_type_fallthrough (kvs : List (List Char × Json)) : Except (List Char) (Json × Nat) :=
  match kvLookup kvs ("defined".toList) with
  | some dv =>
    match jGet dv ("name".toList) with
    | some (Json.str type_name) =>
      .error (("Defined type '".toList ++ type_name) ++ "' not yet supported".toList)
    | some _ => .error ("Unsupported complex type: ".toList ++ renderJson (Json.obj kvs))
    | none => .error ("Unsupported complex type: ".toList ++ renderJson (Json.obj kvs))
  | none => .error ("Unsupported complex type: ".toList ++ renderJson (Json.obj kvs))

mutual

/-- `IdlEventDecoder::decode_field`: re-slice the input at `offset`, then
dispatch on the shape of the type expression — objects go to the complex
decoder, strings to the simple decoder, and anything else is an invalid
field type. -/
def IdlEventDecoder.decode_field (data : List Nat) (offset : Nat) (field_type : Json) :
    Except (List Char) (Json × Nat) :=
  let d := data.drop offset
  match field_type with
  | .obj kvs => IdlEventDecoder.decode_complex_type d kvs
  | .str t => IdlEventDecoder.decode_simple_type d t
  | .null => .error ("Invalid field type: ".toList ++ renderJson .null)
  | .boolean b => .error ("Invalid field type: ".toList ++ renderJson (.boolean b))
  | .num n => .error ("Invalid field type: ".toList ++ renderJson (.num n))
  | .arr xs => .error ("Invalid field type: ".toList ++ renderJson (.arr xs))
termination_by (jsonSize field_type, 0)
decreasing_by
  · apply Prod.Lex.left
    simp [jsonSize]
  · apply Prod.Lex.left
    simp [jsonSize]

/-- `IdlEventDecoder::decode_simple_type`: the big dispatch on the textual
type name, in source order.  This value-level function agrees with the
source on every run on which the source returns; the `[T; N]` branch's
eager `Vec::with_capacity(len)` (idl_event.rs:158), which panics instead
of returning for huge declared lengths, is modelled separately by
`arr_reserve` and `capacity_overflow` below. -/
def IdlEventDecoder.decode_simple_type (data : List Nat) (t : List Char) :
    Except (List Char) (Json × Nat) :=
  if t = "bool".toList then
    match data with
    | [] => .error ("Unexpected end of data for bool".toList)
    | b :: _ => .ok (.boolean (b != 0), 1)
  else if t = "u8".toList then
    (read_le_bytes data 1 255).map (fun p => (Json.num p.1, p.2))
  else if t = "u16".toList then
    (read_le_bytes data 2 65535).map (fun p => (Json.num p.1, p.2))
  else if t = "u32".toList then
    (read_le_bytes data 4 4294967295).map (fun p => (Json.num p.1, p.2))
  else if t = "u64".toList then
    (read_le_bytes data 8 18446744073709551615).map (fun p => (Json.str (natToDec p.1), p.2))
  else if t = "u128".toList then
    (read_le_bytes data 16 340282366920938463463374607431768211455).map
      (fun p => (Json.str (natToDec p.1), p.2))
  else if t = "i8".toList then
    (read_le_bytes data 1 127).map (fun p => (Json.num p.1, p.2))
  else if t = "i16".toList then
    (read_le_bytes data 2 32767).map (fun p => (Json.num p.1, p.2))
  else if t = "i32".toList then
    (read_le_bytes data 4 2147483647).map (fun p => (Json.num p.1, p.2))
  else if t = "i64".toList then
    (read_le_bytes data 8 9223372036854775807).map (fun p => (Json.str (natToDec p.1), p.2))
  else if t = "i128".toList then
    (read_i128 data).map (fun p => (Json.str (intToDec p.1), p.2))
  else if t = "string".toList then
    (decode_string data).map (fun p => (Json.str p.1, p.2))
  else if t = "publicKey".toList ∨ t = "pubkey".toList ∨ t = "Pubkey".toList then
    if data.length < 32 then .error ("Not enough data for Pubkey".toList)
    else .ok (.str (base58Encode (data.take 32)), 32)
  else if t = "bytes".toList then
    (decode_bytes data).map (fun p => (Json.str (hexLower p.1), p.2))
  else if hOpt : ("option<".toList).isPrefixOf t ∧ (">".toList).isSuffixOf t then
    match data with
    | [] => .error ("Unexpected end of data for option".toList)
    | b :: _ =>
      if b != 0 then
        match IdlEventDecoder.decode_field (data.drop 1) 0 (Json.str ((t.drop 7).dropLast)) with
        | .error e => .error e
        | .ok (value, bytes_read) => .ok (value, 1 + bytes_read)
      else .ok (.null, 1)
  else if hVec : ("vec<".toList).isPrefixOf t ∧ (">".toList).isSuffixOf t then
    (IdlEventDecoder.decode_vec data ((t.drop 4).dropLast)).map (fun p => (Json.arr p.1, p.2))
  else if hArr : t.head? = some '[' ∧ ';' ∈ t then
    let body := (t.drop 1).dropLast
    let p0 := body.takeWhile (fun c => c != ';')
    match hSplit : body.dropWhile (fun c => c != ';') with
    | _ :: p1 =>
      if ';' ∈ p1 then .error ("Invalid array type: ".toList ++ t)
      else
        match parseUsize (rustTrim p1) with
        | none => .error ("Invalid array length: ".toList ++ p1)
        | some len =>
          (IdlEventDecoder.decode_str_array_go data (rustTrim p0) len 0).map
            (fun p => (Json.arr p.1, p.2))
    | _ => .error ("Invalid array type: ".toList ++ t)
  else
    .error (("Unsupported field type: ".toList ++ t) ++ ". Consider using hex encoding.".toList)
termination_by (t.length + 1, 0)
decreasing_by
  · have h7 := (List.isPrefixOf_iff_prefix.mp hOpt.1).length_le
    have h7e : ("option<".toList).length = 7 := rfl
    rw [h7e] at h7
    apply Prod.Lex.left
    simp [jsonSize]
    omega
  · have h7 := (List.isPrefixOf_iff_prefix.mp hVec.1).length_le
    have h7e : ("vec<".toList).length = 4 := rfl
    rw [h7e] at h7
    apply Prod.Lex.left
    simp
    omega
  · apply Prod.Lex.left
    have hlen : 1 ≤ t.length := by
      cases t with
      | nil => simp at hArr
      | cons a l => simp
    have trimLen : ∀ l : List Char, (rustTrim l).length ≤ l.length := by
      intro l
      unfold rustTrim
      simp only [List.length_reverse]
      exact le_trans (List.dropWhile_sublist _).length_le
        (by simpa using (List.dropWhile_sublist (α := Char) isWsChar).length_le)
    have e1 := List.takeWhile_append_dropWhile (fun c => c != ';') ((t.drop 1).dropLast)
    have e2 := congrArg List.length e1
    rw [hSplit] at e2
    simp only [List.length_append, List.length_cons, List.length_dropLast,
      List.length_drop] at e2
    have e3 := trimLen (((t.drop 1).dropLast).takeWhile (fun c => c != ';'))
    omega

/-- `IdlEventDecoder::decode_complex_type`: accept the `{"array": [T, N]}`
shape (with `T` a string and `N` a `u64`), otherwise fall through to the
defined-type check. -/
def IdlEventDecoder.decode_complex_type (data : List Nat) (kvs : List (List Char × Json)) :
    Except (List Char) (Json × Nat) :=
  match hA : kvLookup kvs ("array".toList) with
  | some (Json.arr [Json.str istr, Json.num n]) =>
    if 0 ≤ n ∧ n ≤ 18446744073709551615 then
      IdlEventDecoder.decode_fixed_array data istr n.toNat
    else complex_type_fallthrough kvs
  | _ => complex_type_fallthrough kvs
termination_by (kvsSize kvs, 0)
decreasing_by
  have hsz : ∀ (l : List (List Char × Json)) (k : List Char) (v : Json),
      kvLookup l k = some v → jsonSize v ≤ kvsSize l := by
    intro l k v h
    induction l with
    | nil => simp [kvLookup] at h
    | cons kv rest ih =>
      obtain ⟨k', v'⟩ := kv
      simp only [kvLookup] at h
      by_cases hk : k' = k
      · rw [if_pos hk] at h
        cases h
        simp [kvsSize]
        omega
      · rw [if_neg hk] at h
        have := ih h
        simp [kvsSize]
        omega
  have h1 := hsz _ _ _ hA
  simp [jsonSize, jsonListSize, kvsSize] at h1
  apply Prod.Lex.left
  omega

/-- `IdlEventDecoder::decode_fixed_array`: `size` repetitions of the inner
simple type, no length prefix.  The source's eager
`Vec::with_capacity(size)` at entry (idl_event.rs:216), which panics
instead of returning for huge sizes, is modelled separately by
`dct_reserve` and `capacity_overflow` below. -/
def IdlEventDecoder.decode_fixed_array (data : List Nat) (inner : List Char) (size : Nat) :
    Except (List Char) (Json × Nat) :=
  (IdlEventDecoder.decode_fixed_array_go data inner size 0).map (fun p => (Json.arr p.1, p.2))
termination_by (inner.length + 2, size + 1)
decreasing_by
  apply Prod.Lex.right
  omega

/-- The loop of `IdlEventDecoder::decode_fixed_array`, accumulating the
cursor. -/
def IdlEventDecoder.decode_fixed_array_go (data : List Nat) (inner : List Char)
    (count offset : Nat) : Except (List Char) (List Json × Nat) :=
  match count with
  | 0 => .ok ([], offset)
  | c + 1 =>
    match IdlEventDecoder.decode_simple_type (data.drop offset) inner with
    | .error e => .error e
    | .ok (v, n) =>
      (IdlEventDecoder.decode_fixed_array_go data inner c (offset + n)).map
        (fun p => (v :: p.1, p.2))
termination_by (inner.length + 2, count)
decreasing_by
  · apply Prod.Lex.left
    omega
  · apply Prod.Lex.right
    omega

/-- `IdlEventDecoder::decode_vec`: u32 little-endian element count, then
that many inner values; the cursor starts after the 4-byte prefix. -/
def IdlEventDecoder.decode_vec (data : List Nat) (inner : List Char) :
    Except (List Char) (List Json × Nat) :=
  if data.length < 4 then .error ("Not enough data for vec length".toList)
  else IdlEventDecoder.decode_vec_go data inner (leNat (data.take 4)) 4
termination_by (inner.length + 3, 0)
decreasing_by
  apply Prod.Lex.left
  omega

/-- The loop of `IdlEventDecoder::decode_vec`: each element is decoded by
`decode_field` on the input re-sliced at the running cursor. -/
def IdlEventDecoder.decode_vec_go (data : List Nat) (inner : List Char) (count total : Nat) :
    Except (List Char) (List Json × Nat) :=
  match count with
  | 0 => .ok ([], total)
  | c + 1 =>
    match IdlEventDecoder.decode_field (data.drop total) 0 (Json.str inner) with
    | .error e => .error e
    | .ok (v, n) =>
      (IdlEventDecoder.decode_vec_go data inner c (total + n)).map (fun p => (v :: p.1, p.2))
termination_by (inner.length + 2, count)
decreasing_by
  · apply Prod.Lex.right
    omega
  · apply Prod.Lex.right
    omega

/-- The loop of the `[T; N]` branch of `decode_simple_type`: like the vec
loop but with the cursor starting at zero (the count comes from the type
text, not the data). -/
def IdlEventDecoder.decode_str_array_go (data : List Nat) (inner : List Char) (count total : Nat) :
    Except (List Char) (List Json × Nat) :=
  match count with
  | 0 => .ok ([], total)
  | c + 1 =>
    match IdlEventDecoder.decode_field (data.drop total) 0 (Json.str inner) with
    | .error e => .error e
    | .ok (v, n) =>
      (IdlEventDecoder.decode_str_array_go data inner c (total + n)).map (fun p => (v :: p.1, p.2))
termination_by (inner.length + 2, count)
decreasing_by
  · apply Prod.Lex.right
    omega
  · apply Prod.Lex.right
    omega

end

/-- The field loop of `IdlEventDecoder::decode`: decode each field at the
running offset, inserting the value under the field's name. -/
def IdlEventDecoder.decode_fields_go (data : List Nat) :
    List IdlField' → Nat → List (List Char × Json) →
    Except (List Char) (List (List Char × Json) × Nat)
  | [], offset, result => .ok (result, offset)
  | field :: rest, offset, result =>
    match IdlEventDecoder.decode_field data offset field.field_type with
    | .error e => .error e
    | .ok (value, bytes_read) =>
      IdlEventDecoder.decode_fields_go data rest (offset + bytes_read)
        (mapInsert result field.name value)

/-- `IdlEventDecoder::decode`: run all fields from offset 0, then require
the cursor to have consumed the entire payload. -/
def IdlEventDecoder.decode (data : List Nat) (fields : List IdlField') :
    Except (List Char) Json :=
  match IdlEventDecoder.decode_fields_go data fields 0 [] with
  | .error e => .error e
  | .ok (result, offset) =>
    if offset ≠ data.length then
      .error ((("Data length mismatch: decoded ".toList ++ natToDec offset) ++
               " bytes, but data is ".toList ++ natToDec data.length) ++ " bytes".toList)
    else .ok (Json.obj result)

/-! The IDL registry (`soltrace-core/src/idl.rs`, continued) and its data
model (`soltrace-core/src/types.rs`). -/

/-- `crate::types::IdlEventDefinition`: an event declaration with optional
inline fields and an optional raw `type` value (named `rtype` here because
`type` is reserved in Lean; the source uses the raw identifier `r#type`). -/
structure IdlEventDefinition' where
  name : List Char
  fields : Option (List IdlField')
  rtype : Option Json

/-- `crate::types::ParsedIdl` restricted to the members that
`find_event_by_discriminator` consults; the `address` is the key under
which the document is registered, so it is kept outside the structure. -/
structure ParsedIdl' where
  events : List IdlEventDefinition'
  types : Option (List Json)

/-- The registry of `IdlParser`: `program_id -> ParsedIdl`.  The source's
`HashMap` is modelled as an association list whose first binding for a key
wins. -/
def IdlRegistry : Type := List (List Char × ParsedIdl')

/-- Lookup in the registry (`HashMap::get`). -/
def registryLookup : IdlRegistry → List Char → Option ParsedIdl'
  | [], _ => none
  | (k, v) :: rest, key => if k = key then some v else registryLookup rest key

/-- `serde_json::from_value::<Vec<IdlField>>` on the `fields` member of a
type definition: the value must be an array of objects each binding `name`
to a string and `type` to an arbitrary value (serde ignores unknown
members). -/
def fieldsFromJsonList : List Json → Option (List IdlField')
  | [] => some []
  | x :: xs =>
    match jGet x ("name".toList), jGet x ("type".toList) with
    | some (Json.str nm), some ft =>
      (fieldsFromJsonList xs).map (fun rest => ⟨nm, ft⟩ :: rest)
    | _, _ => none

/-- `serde_json::from_value::<Vec<IdlField>>` on a non-array value
fails. -/
def fieldsFromJson : Json → Option (List IdlField')
  | .arr xs => fieldsFromJsonList xs
  | _ => none

/-- The scan of the `types` array inside
`IdlParser::find_event_by_discriminator`: the first type definition whose
`name` equals the event's name, whose `type.kind` is `struct`, and whose
`type.fields` parses as a field vector yields those fields together with
the `type` object; all shape or parse failures just continue the scan. -/
def typeDefFields (event_name : List Char) : List Json → Option (List IdlField' × Json)
  | [] => none
  | td :: rest =>
    match
      (match jGet td ("name".toList) with
       | some (Json.str nm) =>
         if nm = event_name then
           match jGet td ("type".toList) with
           | some tObj =>
             match jGet tObj ("kind".toList) with
             | some (Json.str kind) =>
               if kind = "struct".toList then
                 match jGet tObj ("fields".toList) with
                 | some fv =>
                   match fieldsFromJson fv with
                   | some fields_vec => some (fields_vec, tObj)
                   | none => none
                 | none => none
               else none
             | _ => none
           | none => none
         else none
       | _ => none) with
    | some r => some r
    | none => typeDefFields event_name rest

/-- `IdlParser::find_event_by_discriminator`: find the event declaration
whose name's discriminator equals the key; if it has no inline fields, try
to lift fields from the program's `types` table, and fall back to the
declaration as-is. -/
def IdlParser.find_event_by_discriminator (idls : IdlRegistry) (program_id : List Char)
    (discriminator : List Nat) : Option IdlEventDefinition' :=
  match registryLookup idls program_id with
  | none => none
  | some idl =>
    match idl.events.find? (fun e => IdlParser.calculate_discriminator e.name == discriminator) with
    | none => none
    | some event =>
      if event.fields.isSome then some event
      else
        match idl.types with
        | some types =>
          match typeDefFields event.name types with
          | some (fields_vec, tObj) => some ⟨event.name, some fields_vec, some tObj⟩
          | none => some event
        | none => some event

/-! The decode orchestrator (`soltrace-core/src/event.rs`) and the prefix
configuration (`soltrace-core/src/types.rs`). -/

/-- `crate::types::ProgramPrefixConfig`.  The field `default_prefix` of the
source is named `default_tag` here (and `get_prefix` becomes
`program_tag`) purely for Lean naming reasons. -/
structure ProgramPrefixConfig' where
  default_tag : List Char
  program_mappings : List (List Char × List Char)

/-- `ProgramPrefixConfig::new()`: default prefix `"default"`, no
mappings. -/
def ProgramPrefixConfig'.new : ProgramPrefixConfig' :=
  ⟨"default".toList, []⟩

/-- Lookup in the mapping table (`HashMap::get`, association-list
model). -/
def mappingLookup : List (List Char × List Char) → List Char → Option (List Char)
  | [], _ => none
  | (k, v) :: rest, key => if k = key then some v else mappingLookup rest key

/-- `ProgramPrefixConfig::get_prefix`: the mapped prefix, or the default
when the program id is unmapped. -/
def program_tag (cfg : ProgramPrefixConfig') (program_id : List Char) : List Char :=
  (mappingLookup cfg.program_mappings program_id).getD cfg.default_tag

/-- `crate::types::DecodedEvent`. -/
structure DecodedEvent' where
  event_name : List Char
  data : Json
  discriminator : List Nat

/-- `EventDecoder` state: the loaded registry and the prefix
configuration.  (The source field `idl_parser` is named `idl_registry`
here.) -/
structure EventDecoder' where
  idl_registry : IdlRegistry
  prefix_config : ProgramPrefixConfig'

/-- `EventDecoder::decode_event_data`: decode with the IDL fields; on any
decoder error fall back to the hex record.  In the source this returns
`Result` but both arms are `Ok`, so it is modelled as returning the value
directly.  `now` stands for the `chrono::Utc::now().to_rfc3339()` string;
`program_id` and `signature` only feed the log line in the source.  (The
source snapshot passes a third `types` argument to
`IdlEventDecoder::decode`, whose definition in `idl_event.rs` takes only
`(data, fields)`; the embedding follows `idl_event.rs`.) -/
def EventDecoder'.decode_event_data (event_def : IdlEventDefinition') (data : List Nat)
    (now : List Char) : Json :=
  let fields := event_def.fields.getD []
  match IdlEventDecoder.decode data fields with
  | .ok decoded => decoded
  | .error e =>
    Json.obj
      [("hex".toList, Json.str (hexUpper data)),
       ("length".toList, Json.num data.length),
       ("decode_error".toList, Json.str e),
       ("event_name".toList, Json.str event_def.name),
       ("field_count".toList, Json.num fields.length),
       ("timestamp".toList, Json.str now)]

/-- `EventDecoder::decode_event`: split off the 8-byte discriminator, look
the event up, decode (with fallback), and prefix the event name with the
program's tag.  (The source renders the discriminator bytes into the
not-found message with `{:02x?}`; the message is abbreviated here.) -/
def EventDecoder'.decode_event (d : EventDecoder') (program_id signature : List Char)
    (data : List Nat) (now : List Char) : Except (List Char) DecodedEvent' :=
  if data.length < 8 then .error ("Event data too short (< 8 bytes)".toList)
  else
    let discriminator := data.take 8
    let event_data := data.drop 8
    match IdlParser.find_event_by_discriminator d.idl_registry program_id discriminator with
    | none => .error ("No event found with discriminator".toList)
    | some event_def =>
      let decoded := EventDecoder'.decode_event_data event_def event_data now
      let tag := program_tag d.prefix_config program_id
      .ok ⟨(tag ++ "_".toList) ++ event_def.name, decoded, discriminator⟩

/-! Base64 (`base64::engine::general_purpose::STANDARD.decode`, used by
the event extractor) and the extractor itself
(`soltrace-core/src/utils.rs`). -/

/-- Value of one standard-alphabet base64 symbol. -/
def b64Val (c : Char) : Option Nat :=
  if 'A' ≤ c ∧ c ≤ 'Z' then some (c.toNat - 65)
  else if 'a' ≤ c ∧ c ≤ 'z' then some (c.toNat - 97 + 26)
  else if '0' ≤ c ∧ c ≤ '9' then some (c.toNat - 48 + 52)
  else if c = '+' then some 62
  else if c = '/' then some 63
  else none

/-- Decode the final base64 quantum, enforcing canonical padding and zero
trailing bits exactly as `general_purpose::STANDARD` does
(`DecodePaddingMode::RequireCanonical`, `decode_allow_trailing_bits =
false`). -/
def b64DecodeLast (c0 c1 c2 c3 : Char) : Option (List Nat) :=
  if c3 = '=' then
    if c2 = '=' then
      match b64Val c0, b64Val c1 with
      | some v0, some v1 =>
        if v1 % 16 = 0 then some [v0 * 4 + v1 / 16] else none
      | _, _ => none
    else
      match b64Val c0, b64Val c1, b64Val c2 with
      | some v0, some v1, some v2 =>
        if v2 % 4 = 0 then some [v0 * 4 + v1 / 16, v1 % 16 * 16 + v2 / 4] else none
      | _, _, _ => none
  else
    match b64Val c0, b64Val c1, b64Val c2, b64Val c3 with
    | some v0, some v1, some v2, some v3 =>
      some [v0 * 4 + v1 / 16, v1 % 16 * 16 + v2 / 4, v2 % 4 * 64 + v3]
    | _, _, _, _ => none

/-- `STANDARD.decode`: whole quanta of four symbols, with padding admitted
only in the final quantum and the total length a multiple of four. -/
def base64Decode : List Char → Option (List Nat)
  | [] => some []
  | c0 :: c1 :: c2 :: c3 :: rest =>
    if rest.isEmpty then b64DecodeLast c0 c1 c2 c3
    else
      match b64Val c0, b64Val c1, b64Val c2, b64Val c3 with
      | some v0, some v1, some v2, some v3 =>
        (base64Decode rest).map
          (fun bs => (v0 * 4 + v1 / 16) :: (v1 % 16 * 16 + v2 / 4) :: (v2 % 4 * 64 + v3) :: bs)
      | _, _, _, _ => none
  | _ => none

/-- `utils::extract_event_from_log`: a line starting with `Program data:`
whose remainder after `Program data: ` is valid base64 yields the decoded
bytes — but only when the log line itself contains the program id text. -/
def extract_event_from_log (log : List Char) (program_id_str : List Char) : Option (List Nat) :=
  if ("Program data:".toList).isPrefixOf log then
    match stripPrefixL ("Program data: ".toList) log with
    | none => none
    | some data_str =>
      match base64Decode (rustTrim data_str) with
      | some data => if containsSub log program_id_str then some data else none
      | none => none
  else none

/-! The sqlite backend (`soltrace-core/src/db/sqlite.rs`).  The `events`
table created by `run_migrations` has an auto-increment integer primary
key `id` and a unique index `idx_signature_unique` on `signature`; the
state below models exactly that table.  `insert_event` is a plain `INSERT`
whose result is `last_insert_rowid()` rendered in decimal; inserting a
second row with an existing signature violates the unique index, which the
driver surfaces as a `UNIQUE constraint failed` database error. -/

/-- `crate::types::RawEvent` (the `program_id : Pubkey` is kept in its
rendered base58 text form, which is all `insert_event` uses; `timestamp`
stands for the `to_rfc3339()` rendering). -/
structure RawEvent' where
  slot : Nat
  signature : List Char
  program_id : List Char
  log : List Char
  timestamp : List Char

/-- One row of the `events` table.  The `data` column holds the JSON
document (the source stores `serde_json::to_string` of it; the textual
serialization is immaterial to the claims). -/
structure EventRow where
  id : Nat
  slot : Int
  signature : List Char
  program_id : List Char
  event_name : List Char
  discriminator : List Char
  data : Json
  timestamp : List Char

/-- The sqlite table state: rows plus the next auto-increment rowid. -/
structure SqliteState where
  rows : List EventRow
  nextId : Nat

/-- The freshly migrated, empty `events` table. -/
def emptySqlite : SqliteState := ⟨[], 1⟩

/-- `u64` cast to `i64` (`raw.slot as i64`). -/
def i64ofU64 (n : Nat) : Int :=
  if n < 2 ^ 63 then (n : Int) else (n : Int) - 2 ^ 64

/-- `SqliteBackend::insert_event` together with the unique-index behaviour
of the migrated table: fail with the UNIQUE-constraint error when the
signature is already present, otherwise append the row and return
`last_insert_rowid()` as a string. -/
def insert_event (st : SqliteState) (event : DecodedEvent') (raw : RawEvent') :
    Except (List Char) (SqliteState × List Char) :=
  if st.rows.any (fun r => r.signature == raw.signature) then
    .error ("UNIQUE constraint failed: events.signature".toList)
  else
    .ok
      (⟨st.rows ++
          [⟨st.nextId, i64ofU64 raw.slot, raw.signature, raw.program_id, event.event_name,
            hexUpper event.discriminator, event.data, raw.timestamp⟩],
        st.nextId + 1⟩,
       natToDec st.nextId)

/-! The retry kernel (`soltrace-core/src/retry.rs`). -/

/-- The rate-limit test of `retry_with_rate_limit`: the lowercased error
text contains `rate limit`, `429`, or `too many requests`. -/
def is_rate_limit_msg (e : List Char) : Bool :=
  let s := toLowerL e
  containsSub s ("rate limit".toList) || containsSub s ("429".toList) ||
    containsSub s ("too many requests".toList)

/-- The delay (in milliseconds) slept after failing attempt `attempt`:
`(attempt + 1) * 5` seconds on a rate limit, else `100 * 2 ^ attempt`
milliseconds computed in wrapping 64-bit arithmetic (`2u64.pow` in release
mode), both capped at 60 seconds. -/
def rate_limit_delay (attempt : Nat) (e : List Char) : Nat :=
  let d := if is_rate_limit_msg e then (attempt + 1) * 5 * 1000 else 100 * 2 ^ attempt % 2 ^ 64
  min d 60000

/-- The loop of `retry_with_rate_limit`, with the operation modelled as a
function from the attempt index to that invocation's outcome.  Returns the
final result, the list of sleeps performed (in milliseconds, in order),
and the number of invocations.  `retriesLeft` equals
`max_retries - attempt`, so `attempt < max_retries` in the source is
`retriesLeft > 0` here. -/
def retry_rl_go {α : Type} (op : Nat → Except (List Char) α) :
    Nat → Nat → Except (List Char) α × List Nat × Nat
  | attempt, retriesLeft =>
    match op attempt with
    | .ok v => (.ok v, [], 1)
    | .error e =>
      match retriesLeft with
      | 0 => (.error e, [], 1)
      | rl + 1 =>
        let d := rate_limit_delay attempt e
        let r := retry_rl_go op (attempt + 1) rl
        (r.1, d :: r.2.1, r.2.2 + 1)

/-- `retry::retry_with_rate_limit(op, max_retries)`. -/
def retry_with_rate_limit {α : Type} (op : Nat → Except (List Char) α) (max_retries : Nat) :
    Except (List Char) α × List Nat × Nat :=
  retry_rl_go op 0 max_retries

/-! The live subscriber's reconnect loop
(`soltrace-live/src/main.rs::run_websocket_loop`). -/

/-- The delay in seconds slept before retry number `n` (the attempt
counter after its increment): a flat 15 minutes once the counter exceeds
10, otherwise `reconnect_delay * 2 ^ min n 10` computed in `u64`
arithmetic. -/
def reconnect_delay_secs (reconnect_delay n : Nat) : Nat :=
  if n > 10 then 60 * 15 else reconnect_delay * 2 ^ min n 10 % 2 ^ 64

/-- Result of a websocket-loop run over a finite prefix of handler
outcomes. -/
inductive WsOutcome where
  | closedNormally : WsOutcome
  | maxReconnectsExceeded : WsOutcome
  | stillRunning (reconnect_count : Nat) : WsOutcome
deriving DecidableEq

/-- `run_websocket_loop`, driven by the sequence of
`websocket_handler` outcomes (`true` = `Ok`, `false` = `Err`): returns the
sleeps performed (in seconds, in order) and how the loop ended.  The
max-reconnect check precedes each connection attempt; a handler success
breaks out normally; a failure increments the counter and sleeps. -/
def ws_loop (max_reconnects reconnect_delay : Nat) :
    List Bool → Nat → List Nat × WsOutcome
  | [], count => ([], .stillRunning count)
  | outcome :: rest, count =>
    if max_reconnects > 0 ∧ count ≥ max_reconnects then ([], .maxReconnectsExceeded)
    else if outcome then ([], .closedNormally)
    else
      let d := reconnect_delay_secs reconnect_delay (count + 1)
      let r := ws_loop max_reconnects reconnect_delay rest (count + 1)
      (d :: r.1, r.2)

/-! Concrete inputs used by counterexamples and witnesses. -/

/-- A decoded event used in the storage counterexample. -/
def cEv : DecodedEvent' :=
  ⟨"default_Transfer".toList, Json.null, [1, 2, 3, 4, 5, 6, 7, 8]⟩

/-- A raw event used in the storage counterexample. -/
def cRaw : RawEvent' :=
  ⟨1, "sig1".toList, "prog".toList, [], "2024-01-01T00:00:00+00:00".toList⟩

/-- Two consecutive inserts of the same event into a fresh store,
returning both event ids on success and the first error otherwise. -/
def c1_twice : Except (List Char) (List Char × List Char) :=
  match insert_event emptySqlite cEv cRaw with
  | .error e => .error e
  | .ok (st1, id1) =>
    match insert_event st1 cEv cRaw with
    | .error e => .error e
    | .ok (_, id2) => .ok (id1, id2)

/-- An operation that fails on every attempt with a non-rate-limit
message. -/
def alwaysFailOp : Nat → Except (List Char) Nat := fun _ => .error ("boom".toList)

/-! The eager capacity reservations of the decoder.  The value-level
functions above cover every run on which the source *returns*; the source
additionally calls `Vec::with_capacity` with the schema-declared element
count before decoding a single element, at idl_event.rs:158 (the `[T; N]`
branch of `decode_simple_type`) and idl_event.rs:216 (the entry of
`decode_fixed_array`).  `Vec::with_capacity` panics rather than returns
when the requested layout overflows, so those two sites are modelled
explicitly here as the capacity each one requests. -/

/-- `size_of::<serde_json::Value>()` on a 64-bit target: the element size
that `Vec::with_capacity` multiplies the requested capacity by. -/
def serde_value_size : Nat := 32

/-- The panic condition of `Vec::with_capacity(n)` for a
`Vec<serde_json::Value>`: Rust panics with "capacity overflow" exactly
when the requested layout `n * size_of::<Value>()` exceeds `isize::MAX`
(`Layout::array` rejects it and `RawVec` turns the rejection into a
panic). -/
def capacity_overflow (n : Nat) : Bool :=
  decide (9223372036854775807 < n * serde_value_size)

/-- The capacity handed to `Vec::with_capacity` at idl_event.rs:158.  The
guard and the length parse are those of the `[T; N]` branch of
`decode_simple_type` (a branch whose guard — leading `[` plus a `;` — is
disjoint from every earlier branch of the dispatch), so `some len` means
control reaches `Vec::with_capacity(len)` there, before any element or
bounds check, for every payload. -/
def arr_reserve (t : List Char) : Option Nat :=
  if t.head? = some '[' ∧ ';' ∈ t then
    match ((t.drop 1).dropLast).dropWhile (fun c => c != ';') with
    | _ :: p1 => if ';' ∈ p1 then none else parseUsize (rustTrim p1)
    | _ => none
  else none

/-- The capacity handed to `Vec::with_capacity` at idl_event.rs:216 when
`decode_complex_type` accepts the `{"array": [T, N]}` shape: it calls
`decode_fixed_array` with the schema-supplied size (`arr[1].as_u64() as
usize`), which reserves that many values up front; `some size` means
control reaches `Vec::with_capacity(size)` there for every payload. -/
def dct_reserve (kvs : List (List Char × Json)) : Option Nat :=
  match kvLookup kvs ("array".toList) with
  | some (Json.arr [Json.str _, Json.num n]) =>
    if 0 ≤ n ∧ n ≤ 18446744073709551615 then some n.toNat else none
  | _ => none

/-! Theorems.  Each claim of the specification is settled below; helper
lemmas (branch evaluations of the well-founded decoder and loop
characterizations) come first. -/

/-- Evaluation: `decode_field` on a string type defers to
`decode_simple_type` of the re-sliced input. -/
theorem df_str (data : List Nat) (offset : Nat) (t : List Char) :
    IdlEventDecoder.decode_field data offset (Json.str t) =
    IdlEventDecoder.decode_simple_type (data.drop offset) t := by
  rw [IdlEventDecoder.decode_field.eq_def]

/-- Evaluation: `decode_field` on an object type defers to
`decode_complex_type` of the re-sliced input. -/
theorem df_obj (data : List Nat) (offset : Nat) (kvs : List (List Char × Json)) :
    IdlEventDecoder.decode_field data offset (Json.obj kvs) =
    IdlEventDecoder.decode_complex_type (data.drop offset) kvs := by
  rw [IdlEventDecoder.decode_field.eq_def]

/-- Evaluation of the `u8` branch of `decode_simple_type`. -/
theorem dst_u8 (data : List Nat) :
    IdlEventDecoder.decode_simple_type data ("u8".toList) =
    (read_le_bytes data 1 255).map (fun p => (Json.num p.1, p.2)) := by
  rw [IdlEventDecoder.decode_simple_type.eq_def]; rfl

/-- Evaluation of the `u16` branch of `decode_simple_type`. -/
theorem dst_u16 (data : List Nat) :
    IdlEventDecoder.decode_simple_type data ("u16".toList) =
    (read_le_bytes data 2 65535).map (fun p => (Json.num p.1, p.2)) := by
  rw [IdlEventDecoder.decode_simple_type.eq_def]; rfl

/-- Evaluation of the `u32` branch of `decode_simple_type`. -/
theorem dst_u32 (data : List Nat) :
    IdlEventDecoder.decode_simple_type data ("u32".toList) =
    (read_le_bytes data 4 4294967295).map (fun p => (Json.num p.1, p.2)) := by
  rw [IdlEventDecoder.decode_simple_type.eq_def]; rfl

/-- Evaluation of the `u64` branch of `decode_simple_type`. -/
theorem dst_u64 (data : List Nat) :
    IdlEventDecoder.decode_simple_type data ("u64".toList) =
    (read_le_bytes data 8 18446744073709551615).map
      (fun p => (Json.str (natToDec p.1), p.2)) := by
  rw [IdlEventDecoder.decode_simple_type.eq_def]; rfl

/-- Evaluation of the `u128` branch of `decode_simple_type`. -/
theorem dst_u128 (data : List Nat) :
    IdlEventDecoder.decode_simple_type data ("u128".toList) =
    (read_le_bytes data 16 340282366920938463463374607431768211455).map
      (fun p => (Json.str (natToDec p.1), p.2)) := by
  rw [IdlEventDecoder.decode_simple_type.eq_def]; rfl

/-- Evaluation of the `i8` branch of `decode_simple_type`. -/
theorem dst_i8 (data : List Nat) :
    IdlEventDecoder.decode_simple_type data ("i8".toList) =
    (read_le_bytes data 1 127).map (fun p => (Json.num p.1, p.2)) := by
  rw [IdlEventDecoder.decode_simple_type.eq_def]; rfl

/-- Evaluation of the `i16` branch of `decode_simple_type`. -/
theorem dst_i16 (data : List Nat) :
    IdlEventDecoder.decode_simple_type data ("i16".toList) =
    (read_le_bytes data 2 32767).map (fun p => (Json.num p.1, p.2)) := by
  rw [IdlEventDecoder.decode_simple_type.eq_def]; rfl

/-- Evaluation of the `i32` branch of `decode_simple_type`. -/
theorem dst_i32 (data : List Nat) :
    IdlEventDecoder.decode_simple_type data ("i32".toList) =
    (read_le_bytes data 4 2147483647).map (fun p => (Json.num p.1, p.2)) := by
  rw [IdlEventDecoder.decode_simple_type.eq_def]; rfl

/-- Evaluation of the `i64` branch of `decode_simple_type`. -/
theorem dst_i64 (data : List Nat) :
    IdlEventDecoder.decode_simple_type data ("i64".toList) =
    (read_le_bytes data 8 9223372036854775807).map
      (fun p => (Json.str (natToDec p.1), p.2)) := by
  rw [IdlEventDecoder.decode_simple_type.eq_def]; rfl

/-- Evaluation of the `i128` branch of `decode_simple_type`. -/
theorem dst_i128 (data : List Nat) :
    IdlEventDecoder.decode_simple_type data ("i128".toList) =
    (read_i128 data).map (fun p => (Json.str (intToDec p.1), p.2)) := by
  rw [IdlEventDecoder.decode_simple_type.eq_def]; rfl

/-- Claim C1 counterexample: inserting the same event twice into a fresh
sqlite store does not silently succeed with the same content-addressed
event id — the first insert returns the auto-increment rowid `"1"` (not a
32-byte SHA-256 identifier), and the second insert fails with the
UNIQUE-constraint error on `signature`. -/
theorem claim_C1_counterexample :
    c1_twice = .error ("UNIQUE constraint failed: events.signature".toList) ∧
    (insert_event emptySqlite cEv cRaw).toOption.map Prod.snd = some ("1".toList) ∧
    ("1".toList).length ≠ 64 := by
  refine ⟨by rfl, by rfl, by decide⟩

/-- Claim C1 (amended): the sqlite `insert_event` is a plain `INSERT`
returning `last_insert_rowid()` in decimal; the migrated table's unique
index is on `signature`, so a successful insert appends exactly one row
and a second insert carrying the same signature fails with the
UNIQUE-constraint error instead of being silently ignored (callers treat
that error as a duplicate and skip it). -/
theorem claim_C1_amended (st : SqliteState) (ev ev2 : DecodedEvent') (raw : RawEvent')
    (st1 : SqliteState) (rid : List Char)
    (h : insert_event st ev raw = .ok (st1, rid)) :
    rid = natToDec st.nextId ∧
    st1.rows.length = st.rows.length + 1 ∧
    insert_event st1 ev2 raw = .error ("UNIQUE constraint failed: events.signature".toList) := by
  unfold insert_event at h
  by_cases hs : (st.rows.any (fun r => r.signature == raw.signature)) = true
  · rw [if_pos hs] at h
    exact absurd h (by simp)
  · rw [if_neg hs] at h
    have hst : st1 = ⟨st.rows ++
        [⟨st.nextId, i64ofU64 raw.slot, raw.signature, raw.program_id, ev.event_name,
          hexUpper ev.discriminator, ev.data, raw.timestamp⟩], st.nextId + 1⟩ ∧
        rid = natToDec st.nextId := by
      have := h
      simp only [Except.ok.injEq, Prod.mk.injEq] at this
      exact ⟨this.1.symm, this.2.symm⟩
    refine ⟨hst.2, ?_, ?_⟩
    · rw [hst.1]
      simp
    · unfold insert_event
      rw [if_pos ?_]
      rw [hst.1]
      simp

/-- Claim C1 witness: the amended statement evaluated on a fresh store and
a concrete event. -/
theorem claim_C1_witness :
    ("1".toList : List Char) = natToDec emptySqlite.nextId ∧
    (⟨[⟨1, 1, "sig1".toList, "prog".toList, "default_Transfer".toList,
        hexUpper [1, 2, 3, 4, 5, 6, 7, 8], Json.null,
        "2024-01-01T00:00:00+00:00".toList⟩], 2⟩ : SqliteState).rows.length =
      emptySqlite.rows.length + 1 ∧
    insert_event
        ⟨[⟨1, 1, "sig1".toList, "prog".toList, "default_Transfer".toList,
          hexUpper [1, 2, 3, 4, 5, 6, 7, 8], Json.null,
          "2024-01-01T00:00:00+00:00".toList⟩], 2⟩ cEv cRaw =
      .error ("UNIQUE constraint failed: events.signature".toList) :=
  claim_C1_amended emptySqlite cEv cEv cRaw _ _ (by rfl)

/-- Helper: `beBytes` produces exactly the requested number of bytes. -/
theorem beBytes_length (w : Nat) : ∀ v, (beBytes w v).length = w := by
  induction w with
  | zero => intro v; rfl
  | succ w ih => intro v; simp [beBytes, ih]

/-- Helper: a SHA-256 digest is 32 bytes long. -/
theorem sha256_length (msg : List Nat) : (sha256 msg).length = 32 := by
  unfold sha256
  simp [beBytes_length]

/-- Claim C2: `IdlParser::calculate_discriminator` returns exactly the
first eight bytes of SHA-256 over the UTF-8 bytes of `event:` followed by
the event name, and that prefix is eight bytes long. -/
theorem claim_C2 (name : List Char) :
    IdlParser.calculate_discriminator name =
      (sha256 (utf8Encode ("event:".toList ++ name))).take 8 ∧
    (IdlParser.calculate_discriminator name).length = 8 := by
  refine ⟨rfl, ?_⟩
  unfold IdlParser.calculate_discriminator
  rw [List.length_take, sha256_length]
  decide

set_option maxRecDepth 10000 in
/-- Anchor for the SHA-256 embedding: the NIST test vector for `abc`. -/
theorem sha256_abc_vector :
    sha256 (utf8Encode ("abc".toList)) =
    [0xba, 0x78, 0x16, 0xbf, 0x8f, 0x01, 0xcf, 0xea, 0x41, 0x41, 0x40, 0xde, 0x5d, 0xae, 0x22,
     0x23, 0xb0, 0x03, 0x61, 0xa3, 0x96, 0x17, 0x7a, 0x9c, 0xb4, 0x10, 0xff, 0x61, 0xf2, 0x00,
     0x15, 0xad] := by decide

set_option maxRecDepth 10000 in
/-- Anchor for the discriminator: the repository's own
`test_payment_record_fields_from_idl` expects exactly these eight
bytes. -/
theorem discriminator_payment_record_vector :
    IdlParser.calculate_discriminator ("PaymentRecord".toList) =
    [42, 100, 253, 124, 170, 186, 231, 186] := by decide

/-- Helper: position `j` of the sleep list of an all-failure websocket run
is the reconnect delay of attempt `count + j + 1`. -/
theorem ws_loop_false_getD (base : Nat) :
    ∀ (k count j : Nat), j < k →
      (ws_loop 0 base (List.replicate k false) count).1.getD j 0 =
        reconnect_delay_secs base (count + j + 1) := by
  intro k
  induction k with
  | zero => intro count j hj; omega
  | succ k ih =>
    intro count j hj
    rw [List.replicate_succ]
    unfold ws_loop
    simp only [gt_iff_lt, lt_self_iff_false, false_and, if_false, Bool.false_eq_true, if_neg]
    cases j with
    | zero => simp
    | succ j =>
      simp only [List.getD_cons_succ]
      rw [ih (count + 1) j (by omega)]
      ring_nf

/-- Claim C6 counterexample: with the default 5-second base delay, the
sleep before reconnection attempt 10 is 5120 seconds, while the claimed
formula `min(base * 2 ^ min(n, 10), 15 minutes)` gives 900 seconds — so a
reconnect delay does exceed 15 minutes. -/
theorem claim_C6_counterexample :
    (ws_loop 0 5 (List.replicate 10 false) 0).1.getD 9 0 = 5120 ∧
    min (5 * 2 ^ min 10 10) (60 * 15) = 900 ∧ (5120 : Nat) ≠ 900 := by
  refine ⟨by decide, by decide, by decide⟩

/-- Claim C6 (amended): the sleep before reconnection attempt `n = j + 1`
of `run_websocket_loop` is `reconnect_delay * 2 ^ n` seconds (wrapping
64-bit arithmetic) for `n ≤ 10` and a flat 900 seconds for `n > 10`; the
15-minute cap only applies from the eleventh attempt on, so earlier delays
may exceed it (up to `reconnect_delay * 2 ^ 10`). -/
theorem claim_C6_amended (base k j : Nat) (h : j < k) :
    (ws_loop 0 base (List.replicate k false) 0).1.getD j 0 =
      if 10 < j + 1 then 900 else base * 2 ^ min (j + 1) 10 % 2 ^ 64 := by
  rw [ws_loop_false_getD base k 0 j h]
  unfold reconnect_delay_secs
  norm_num

/-- Claim C6 witness: the amended statement evaluated at the tenth attempt
of an all-failure run with the default base delay. -/
theorem claim_C6_witness :
    (ws_loop 0 5 (List.replicate 10 false) 0).1.getD 9 0 =
      if 10 < 9 + 1 then 900 else 5 * 2 ^ min (9 + 1) 10 % 2 ^ 64 :=
  claim_C6_amended 5 10 9 (by decide)

/-- Claim C7 counterexample: a line with the exact `Program data: ` prefix
and a valid base64 remainder for which the extractor nevertheless returns
`none`, because the line does not contain the program id text. -/
theorem claim_C7_counterexample :
    stripPrefixL ("Program data: ".toList) ("Program data: QUJD".toList) =
      some ("QUJD".toList) ∧
    base64Decode ("QUJD".toList) = some [65, 66, 67] ∧
    extract_event_from_log ("Program data: QUJD".toList) ("zzz".toList) = none := by
  refine ⟨by decide, by decide, by decide⟩

/-- Claim C7 (amended): the extractor returns a blob exactly when the line
carries the `Program data: ` prefix, the trimmed remainder is valid
standard base64, and additionally the line itself contains the program id
text; in every other case (wrong prefix, invalid base64, or program id not
a substring of the line) it returns `none`. -/
theorem claim_C7_amended (log pid : List Char) (b : List Nat) :
    extract_event_from_log log pid = some b ↔
      (∃ rest, stripPrefixL ("Program data: ".toList) log = some rest ∧
        base64Decode (rustTrim rest) = some b ∧ containsSub log pid = true) := by
  unfold extract_event_from_log
  by_cases h1 : (("Program data:".toList).isPrefixOf log) = true
  · rw [if_pos h1]
    cases h2 : stripPrefixL ("Program data: ".toList) log with
    | none => simp
    | some rest =>
      cases h3 : base64Decode (rustTrim rest) with
      | none => simp [h3]
      | some bs =>
        by_cases h4 : (containsSub log pid) = true
        · simp [h3, h4]
        · simp [h3, h4]
  · rw [if_neg h1]
    constructor
    · intro hfalse; exact absurd hfalse (by simp)
    · rintro ⟨rest, hstrip, _, _⟩
      unfold stripPrefixL at hstrip
      by_cases hp : (("Program data: ".toList).isPrefixOf log) = true
      · have hshort : ("Program data:".toList) <+: ("Program data: ".toList) := by decide
        have hlong := List.isPrefixOf_iff_prefix.mp hp
        exact absurd (List.isPrefixOf_iff_prefix.mpr (hshort.trans hlong)) h1
      · rw [if_neg hp] at hstrip
        exact absurd hstrip (by simp)

/-- Helper: the retry loop invokes the operation at most once more than
the remaining retry budget. -/
theorem retry_go_count {α : Type} (op : Nat → Except (List Char) α) :
    ∀ (rl attempt : Nat), (retry_rl_go op attempt rl).2.2 ≤ rl + 1 := by
  intro rl
  induction rl with
  | zero =>
    intro attempt
    unfold retry_rl_go
    cases op attempt <;> simp
  | succ rl ih =>
    intro attempt
    unfold retry_rl_go
    cases op attempt with
    | ok v => simp
    | error e =>
      simp only []
      have := ih (attempt + 1)
      omega

/-- Helper: the `j`-th sleep of the retry loop is the delay computed for
the failing attempt `attempt + j`. -/
theorem retry_go_sleeps {α : Type} (op : Nat → Except (List Char) α) :
    ∀ (rl attempt j : Nat) (e : List Char),
      j < (retry_rl_go op attempt rl).2.1.length →
      op (attempt + j) = .error e →
      (retry_rl_go op attempt rl).2.1.getD j 0 = rate_limit_delay (attempt + j) e := by
  intro rl
  induction rl with
  | zero =>
    intro attempt j e hj _
    unfold retry_rl_go at hj
    cases hop : op attempt <;> rw [hop] at hj <;> simp at hj
  | succ rl ih =>
    intro attempt j e hj hop
    unfold retry_rl_go at hj ⊢
    cases hop0 : op attempt with
    | ok v => rw [hop0] at hj; simp at hj
    | error e0 =>
      rw [hop0] at hj
      dsimp only [] at hj ⊢
      cases j with
      | zero =>
        have he : e0 = e := by
          have h1 := hop
          rw [Nat.add_zero] at h1
          rw [hop0] at h1
          exact Except.error.inj h1
        simp [he]
      | succ j =>
        simp only [List.getD_cons_succ, List.length_cons] at hj ⊢
        have hop' : op (attempt + 1 + j) = .error e := by
          rw [show attempt + 1 + j = attempt + (j + 1) by omega]
          exact hop
        have := ih (attempt + 1) j e (by omega) hop'
        rw [show attempt + (j + 1) = attempt + 1 + j by omega]
        exact this

/-- Helper: if every attempt up to the budget fails, the retry loop
returns the error of the final attempt. -/
theorem retry_go_exhaust {α : Type} (op : Nat → Except (List Char) α) :
    ∀ (rl attempt : Nat) (e : List Char),
      (∀ i, i ≤ rl → ∃ e', op (attempt + i) = .error e') →
      op (attempt + rl) = .error e →
      (retry_rl_go op attempt rl).1 = .error e := by
  intro rl
  induction rl with
  | zero =>
    intro attempt e _ hlast
    rw [Nat.add_zero] at hlast
    unfold retry_rl_go
    rw [hlast]
  | succ rl ih =>
    intro attempt e hall hlast
    obtain ⟨e0, h0⟩ := hall 0 (by omega)
    rw [Nat.add_zero] at h0
    unfold retry_rl_go
    rw [h0]
    simp only []
    apply ih (attempt + 1) e
    · intro i hi
      obtain ⟨e', h'⟩ := hall (i + 1) (by omega)
      exact ⟨e', by rw [show attempt + 1 + i = attempt + (i + 1) by omega]; exact h'⟩
    · rw [show attempt + 1 + rl = attempt + (rl + 1) by omega]
      exact hlast

/-- Claim C8 counterexample: with an always-failing non-rate-limit
operation and retry bound 63, the sleep after failing attempt 62 is 0 ms
(the u64 product `100 * 2 ^ 62` wraps to zero), while the claimed formula
`min(100 ms * 2 ^ 62, 60 s)` gives 60000 ms. -/
theorem claim_C8_counterexample :
    (retry_with_rate_limit alwaysFailOp 63).2.1.getD 62 0 = 0 ∧
    min (100 * 2 ^ 62) 60000 = 60000 ∧ (0 : Nat) ≠ 60000 := by
  refine ⟨by decide, by decide, by decide⟩

/-- Claim C8 (amended): `retry_with_rate_limit` invokes the operation at
most `R + 1` times; each failing attempt `j` that still has retries left
sleeps `min((j + 1) * 5 s, 60 s)` when the lowercased error message
contains a rate-limit marker and `min((100 ms * 2 ^ j) mod 2 ^ 64, 60 s)`
otherwise — the non-rate-limit delay is computed in wrapping 64-bit
arithmetic, so it collapses to 0 for `j ≥ 62` instead of staying at the
60-second cap; on exhaustion the last error is returned. -/
theorem claim_C8_amended {α : Type} (op : Nat → Except (List Char) α) (R : Nat) :
    (retry_with_rate_limit op R).2.2 ≤ R + 1 ∧
    (∀ j e, j < (retry_with_rate_limit op R).2.1.length → op j = .error e →
      (retry_with_rate_limit op R).2.1.getD j 0 =
        min (if is_rate_limit_msg e then (j + 1) * 5 * 1000 else 100 * 2 ^ j % 2 ^ 64)
          60000) ∧
    (∀ e, (∀ i, i ≤ R → ∃ e', op i = .error e') → op R = .error e →
      (retry_with_rate_limit op R).1 = .error e) := by
  refine ⟨retry_go_count op R 0, ?_, ?_⟩
  · intro j e hj hop
    unfold retry_with_rate_limit at hj ⊢
    have := retry_go_sleeps op R 0 j e hj (by rw [Nat.zero_add]; exact hop)
    rw [Nat.zero_add] at this
    rw [this]
    rfl
  · intro e hall hlast
    exact retry_go_exhaust op R 0 e
      (fun i hi => by rw [Nat.zero_add]; exact hall i hi)
      (by rw [Nat.zero_add]; exact hlast)

/-- Claim C8 witness: the amended statement evaluated on an always-failing
operation with retry bound 3; the sleep after attempt 1 is 200 ms. -/
theorem claim_C8_witness :
    (retry_with_rate_limit alwaysFailOp 3).2.1.getD 1 0 =
      min (if is_rate_limit_msg ("boom".toList) then (1 + 1) * 5 * 1000
           else 100 * 2 ^ 1 % 2 ^ 64) 60000 :=
  (claim_C8_amended alwaysFailOp 3).2.1 1 ("boom".toList) (by decide) (by rfl)

/-- Evaluation of the `string` branch of `decode_simple_type`. -/
theorem dst_string (data : List Nat) :
    IdlEventDecoder.decode_simple_type data ("string".toList) =
    (decode_string data).map (fun p => (Json.str p.1, p.2)) := by
  rw [IdlEventDecoder.decode_simple_type.eq_def]; rfl

/-- Evaluation of the `bytes` branch of `decode_simple_type`. -/
theorem dst_bytes (data : List Nat) :
    IdlEventDecoder.decode_simple_type data ("bytes".toList) =
    (decode_bytes data).map (fun p => (Json.str (hexLower p.1), p.2)) := by
  rw [IdlEventDecoder.decode_simple_type.eq_def]; rfl

/-- Helper: a successful `Except.map` comes from a successful base
computation. -/
theorem mapE_ok {β γ : Type} {r : Except (List Char) β} {f : β → γ} {c : γ}
    (h : r.map f = .ok c) : ∃ b, r = .ok b ∧ c = f b := by
  cases r with
  | error e => simp [Except.map] at h
  | ok b =>
    refine ⟨b, rfl, ?_⟩
    simpa [Except.map] using h.symm

/-- Helper: a successful little-endian read consumed exactly `size` bytes,
all of which were available. -/
theorem read_le_bytes_ok {data : List Nat} {size tmax m n : Nat}
    (h : read_le_bytes data size tmax = .ok (m, n)) : n = size ∧ size ≤ data.length := by
  unfold read_le_bytes at h
  by_cases h1 : data.length < size
  · rw [if_pos h1] at h
    simp at h
  · rw [if_neg h1] at h
    dsimp only [] at h
    by_cases h2 : leNat (data.take size) ≤ tmax
    · rw [if_pos h2] at h
      simp only [Except.ok.injEq, Prod.mk.injEq] at h
      exact ⟨h.2.symm, by omega⟩
    · rw [if_neg h2] at h
      simp at h

/-- Helper: a successful i128 read consumed 16 available bytes. -/
theorem read_i128_ok {data : List Nat} {m : Int} {n : Nat}
    (h : read_i128 data = .ok (m, n)) : n = 16 ∧ 16 ≤ data.length := by
  unfold read_i128 at h
  by_cases h1 : data.length < 16
  · rw [if_pos h1] at h
    simp at h
  · rw [if_neg h1] at h
    simp only [Except.ok.injEq, Prod.mk.injEq] at h
    exact ⟨h.2.symm, by omega⟩

/-- Helper: a successful borsh string decode stays within the input. -/
theorem decode_string_ok {data : List Nat} {s : List Char} {n : Nat}
    (h : decode_string data = .ok (s, n)) : n ≤ data.length := by
  unfold decode_string at h
  by_cases h1 : data.length < 4
  · rw [if_pos h1] at h
    simp at h
  · rw [if_neg h1] at h
    dsimp only [] at h
    by_cases h2 : data.length < 4 + leNat (data.take 4)
    · rw [if_pos h2] at h
      simp at h
    · rw [if_neg h2] at h
      cases hu : utf8Decode ((data.drop 4).take (leNat (data.take 4))) with
      | none => rw [hu] at h; simp at h
      | some s' =>
        rw [hu] at h
        simp only [Except.ok.injEq, Prod.mk.injEq] at h
        omega

/-- Helper: a successful borsh bytes decode stays within the input. -/
theorem decode_bytes_ok {data : List Nat} {bs : List Nat} {n : Nat}
    (h : decode_bytes data = .ok (bs, n)) : n ≤ data.length := by
  unfold decode_bytes at h
  by_cases h1 : data.length < 4
  · rw [if_pos h1] at h
    simp at h
  · rw [if_neg h1] at h
    dsimp only [] at h
    by_cases h2 : data.length < 4 + leNat (data.take 4)
    · rw [if_pos h2] at h
      simp at h
    · rw [if_neg h2] at h
      simp only [Except.ok.injEq, Prod.mk.injEq] at h
      omega

/-- Helper: the defined-type fallthrough never succeeds. -/
theorem complex_type_fallthrough_ok_false {kvs : List (List Char × Json)}
    {c : Json × Nat} (h : complex_type_fallthrough kvs = .ok c) : False := by
  unfold complex_type_fallthrough at h
  split at h
  · split at h
    · simp at h
    · simp at h
    · simp at h
  · simp at h

/-- Helper: conditional evaluation of `decode_complex_type` when the
`array` member has the accepted shape. -/
theorem dct_array {data : List Nat} {kvs : List (List Char × Json)} {istr : List Char} {n : Int}
    (hA : kvLookup kvs ("array".toList) = some (Json.arr [Json.str istr, Json.num n])) :
    IdlEventDecoder.decode_complex_type data kvs =
      if 0 ≤ n ∧ n ≤ 18446744073709551615 then
        IdlEventDecoder.decode_fixed_array data istr n.toNat
      else complex_type_fallthrough kvs := by
  rw [IdlEventDecoder.decode_complex_type.eq_def]
  split
  next istr' n' hA' =>
    rw [hA] at hA'
    simp only [Option.some.injEq, Json.arr.injEq, List.cons.injEq, Json.str.injEq,
      Json.num.injEq, and_true] at hA'
    rw [← hA'.1, ← hA'.2]
  next hother =>
    exact absurd hA (by intro hc; exact hother istr n hc)

/-- The in-bounds invariant of the whole decoder family: whenever any of
the mutually recursive decoding functions succeeds, the number of bytes it
reports consumed is bounded by the length of the input it was given (for
the loops: the final cursor stays within the input when the starting
cursor does).  This is exactly what makes every `&data[offset..]` re-slice
in the Rust source in bounds. -/
theorem decoder_consumed_le :
    (∀ (data : List Nat) (offset : Nat) (ft : Json), ∀ v n,
        IdlEventDecoder.decode_field data offset ft = .ok (v, n) →
        n ≤ (data.drop offset).length) ∧
    (∀ (data : List Nat) (t : List Char), ∀ v n,
        IdlEventDecoder.decode_simple_type data t = .ok (v, n) → n ≤ data.length) ∧
    (∀ (data : List Nat) (inner : List Char) (count total : Nat), ∀ vs off,
        IdlEventDecoder.decode_str_array_go data inner count total = .ok (vs, off) →
        total ≤ data.length → off ≤ data.length) ∧
    (∀ (data : List Nat) (inner : List Char), ∀ vs n,
        IdlEventDecoder.decode_vec data inner = .ok (vs, n) → n ≤ data.length) ∧
    (∀ (data : List Nat) (inner : List Char) (count total : Nat), ∀ vs off,
        IdlEventDecoder.decode_vec_go data inner count total = .ok (vs, off) →
        total ≤ data.length → off ≤ data.length) ∧
    (∀ (data : List Nat) (kvs : List (List Char × Json)), ∀ v n,
        IdlEventDecoder.decode_complex_type data kvs = .ok (v, n) → n ≤ data.length) ∧
    (∀ (data : List Nat) (inner : List Char) (size : Nat), ∀ v n,
        IdlEventDecoder.decode_fixed_array data inner size = .ok (v, n) → n ≤ data.length) ∧
    (∀ (data : List Nat) (inner : List Char) (count offset : Nat), ∀ vs off,
        IdlEventDecoder.decode_fixed_array_go data inner count offset = .ok (vs, off) →
        offset ≤ data.length → off ≤ data.length) := by
  apply IdlEventDecoder.decode_field.mutual_induct
  case case1 =>
    intro data offset d kvs ih v n h
    rw [df_obj] at h
    exact ih v n h
  case case2 =>
    intro data offset d t ih v n h
    rw [df_str] at h
    exact ih v n h
  case case3 =>
    intro data offset v n h
    rw [IdlEventDecoder.decode_field.eq_def] at h
    simp at h
  case case4 =>
    intro data offset b v n h
    rw [IdlEventDecoder.decode_field.eq_def] at h
    simp at h
  case case5 =>
    intro data offset m v n h
    rw [IdlEventDecoder.decode_field.eq_def] at h
    simp at h
  case case6 =>
    intro data offset xs v n h
    rw [IdlEventDecoder.decode_field.eq_def] at h
    simp at h
  case case7 =>
    intro v n h
    rw [IdlEventDecoder.decode_simple_type.eq_def] at h
    simp at h
  case case8 =>
    intro b rest v n h
    rw [IdlEventDecoder.decode_simple_type.eq_def] at h
    rw [if_pos rfl] at h
    dsimp only [] at h
    simp only [Except.ok.injEq, Prod.mk.injEq] at h
    simp
    omega
  case case9 =>
    intro data _ v n h
    rw [dst_u8] at h
    obtain ⟨⟨m, sz⟩, hr, hc⟩ := mapE_ok h
    have hsz := read_le_bytes_ok hr
    have hn := congrArg Prod.snd hc
    simp at hn
    omega
  case case10 =>
    intro data _ _ v n h
    rw [dst_u16] at h
    obtain ⟨⟨m, sz⟩, hr, hc⟩ := mapE_ok h
    have hsz := read_le_bytes_ok hr
    have hn := congrArg Prod.snd hc
    simp at hn
    omega
  case case11 =>
    intro data _ _ _ v n h
    rw [dst_u32] at h
    obtain ⟨⟨m, sz⟩, hr, hc⟩ := mapE_ok h
    have hsz := read_le_bytes_ok hr
    have hn := congrArg Prod.snd hc
    simp at hn
    omega
  case case12 =>
    intro data _ _ _ _ v n h
    rw [dst_u64] at h
    obtain ⟨⟨m, sz⟩, hr, hc⟩ := mapE_ok h
    have hsz := read_le_bytes_ok hr
    have hn := congrArg Prod.snd hc
    simp at hn
    omega
  case case13 =>
    intro data _ _ _ _ _ v n h
    rw [dst_u128] at h
    obtain ⟨⟨m, sz⟩, hr, hc⟩ := mapE_ok h
    have hsz := read_le_bytes_ok hr
    have hn := congrArg Prod.snd hc
    simp at hn
    omega
  case case14 =>
    intro data _ _ _ _ _ _ v n h
    rw [dst_i8] at h
    obtain ⟨⟨m, sz⟩, hr, hc⟩ := mapE_ok h
    have hsz := read_le_bytes_ok hr
    have hn := congrArg Prod.snd hc
    simp at hn
    omega
  case case15 =>
    intro data _ _ _ _ _ _ _ v n h
    rw [dst_i16] at h
    obtain ⟨⟨m, sz⟩, hr, hc⟩ := mapE_ok h
    have hsz := read_le_bytes_ok hr
    have hn := congrArg Prod.snd hc
    simp at hn
    omega
  case case16 =>
    intro data _ _ _ _ _ _ _ _ v n h
    rw [dst_i32] at h
    obtain ⟨⟨m, sz⟩, hr, hc⟩ := mapE_ok h
    have hsz := read_le_bytes_ok hr
    have hn := congrArg Prod.snd hc
    simp at hn
    omega
  case case17 =>
    intro data _ _ _ _ _ _ _ _ _ v n h
    rw [dst_i64] at h
    obtain ⟨⟨m, sz⟩, hr, hc⟩ := mapE_ok h
    have hsz := read_le_bytes_ok hr
    have hn := congrArg Prod.snd hc
    simp at hn
    omega
  case case18 =>
    intro data _ _ _ _ _ _ _ _ _ _ v n h
    rw [dst_i128] at h
    obtain ⟨⟨m, sz⟩, hr, hc⟩ := mapE_ok h
    have hsz := read_i128_ok hr
    have hn := congrArg Prod.snd hc
    simp at hn
    omega
  case case19 =>
    intro data _ _ _ _ _ _ _ _ _ _ _ v n h
    rw [dst_string] at h
    obtain ⟨⟨s, sz⟩, hr, hc⟩ := mapE_ok h
    have hsz := decode_string_ok hr
    have hn := congrArg Prod.snd hc
    simp at hn
    omega
  case case20 =>
    intro data t n1 n2 n3 n4 n5 n6 n7 n8 n9 n10 n11 n12 hdisj hlt v n h
    rw [IdlEventDecoder.decode_simple_type.eq_def] at h
    rw [if_neg n1, if_neg n2, if_neg n3, if_neg n4, if_neg n5, if_neg n6, if_neg n7, if_neg n8,
      if_neg n9, if_neg n10, if_neg n11, if_neg n12, if_pos hdisj, if_pos hlt] at h
    simp at h
  case case21 =>
    intro data t n1 n2 n3 n4 n5 n6 n7 n8 n9 n10 n11 n12 hdisj hnlt v n h
    rw [IdlEventDecoder.decode_simple_type.eq_def] at h
    rw [if_neg n1, if_neg n2, if_neg n3, if_neg n4, if_neg n5, if_neg n6, if_neg n7, if_neg n8,
      if_neg n9, if_neg n10, if_neg n11, if_neg n12, if_pos hdisj, if_neg hnlt] at h
    simp only [Except.ok.injEq, Prod.mk.injEq] at h
    omega
  case case22 =>
    intro data _ _ _ _ _ _ _ _ _ _ _ _ _ v n h
    rw [dst_bytes] at h
    obtain ⟨⟨bs, sz⟩, hr, hc⟩ := mapE_ok h
    have hsz := decode_bytes_ok hr
    have hn := congrArg Prod.snd hc
    simp at hn
    omega
  case case23 =>
    intro t n1 n2 n3 n4 n5 n6 n7 n8 n9 n10 n11 n12 n13 n14 hOpt v n h
    rw [IdlEventDecoder.decode_simple_type.eq_def] at h
    rw [if_neg n1, if_neg n2, if_neg n3, if_neg n4, if_neg n5, if_neg n6, if_neg n7, if_neg n8,
      if_neg n9, if_neg n10, if_neg n11, if_neg n12, if_neg n13, if_neg n14, dif_pos hOpt] at h
    simp at h
  case case24 =>
    intro t n1 n2 n3 n4 n5 n6 n7 n8 n9 n10 n11 n12 n13 n14 hOpt b rest hb e hferr ihf v n h
    rw [IdlEventDecoder.decode_simple_type.eq_def] at h
    rw [if_neg n1, if_neg n2, if_neg n3, if_neg n4, if_neg n5, if_neg n6, if_neg n7, if_neg n8,
      if_neg n9, if_neg n10, if_neg n11, if_neg n12, if_neg n13, if_neg n14, dif_pos hOpt] at h
    dsimp only [] at h
    rw [if_pos hb, hferr] at h
    simp at h
  case case25 =>
    intro t n1 n2 n3 n4 n5 n6 n7 n8 n9 n10 n11 n12 n13 n14 hOpt b rest hb value bytes_read hfok ihf v n h
    rw [IdlEventDecoder.decode_simple_type.eq_def] at h
    rw [if_neg n1, if_neg n2, if_neg n3, if_neg n4, if_neg n5, if_neg n6, if_neg n7, if_neg n8,
      if_neg n9, if_neg n10, if_neg n11, if_neg n12, if_neg n13, if_neg n14, dif_pos hOpt] at h
    dsimp only [] at h
    rw [if_pos hb, hfok] at h
    dsimp only [] at h
    simp only [Except.ok.injEq, Prod.mk.injEq] at h
    have hbr := ihf value bytes_read hfok
    simp at hbr
    simp
    omega
  case case26 =>
    intro t n1 n2 n3 n4 n5 n6 n7 n8 n9 n10 n11 n12 n13 n14 hOpt b rest hb v n h
    rw [IdlEventDecoder.decode_simple_type.eq_def] at h
    rw [if_neg n1, if_neg n2, if_neg n3, if_neg n4, if_neg n5, if_neg n6, if_neg n7, if_neg n8,
      if_neg n9, if_neg n10, if_neg n11, if_neg n12, if_neg n13, if_neg n14, dif_pos hOpt] at h
    dsimp only [] at h
    rw [if_neg hb] at h
    simp only [Except.ok.injEq, Prod.mk.injEq] at h
    simp
    omega
  case case27 =>
    intro data t n1 n2 n3 n4 n5 n6 n7 n8 n9 n10 n11 n12 n13 n14 hOptn hVec ihv v n h
    rw [IdlEventDecoder.decode_simple_type.eq_def] at h
    rw [if_neg n1, if_neg n2, if_neg n3, if_neg n4, if_neg n5, if_neg n6, if_neg n7, if_neg n8,
      if_neg n9, if_neg n10, if_neg n11, if_neg n12, if_neg n13, if_neg n14, dif_neg hOptn,
      dif_pos hVec] at h
    obtain ⟨⟨vs, n'⟩, hr, hc⟩ := mapE_ok h
    have hn := congrArg Prod.snd hc
    simp at hn
    have := ihv vs n' hr
    omega
  case case28 =>
    intro data t n1 n2 n3 n4 n5 n6 n7 n8 n9 n10 n11 n12 n13 n14 hOptn hVecn hArr body hd p1 hSplit hIn v n h
    rw [IdlEventDecoder.decode_simple_type.eq_def] at h
    rw [if_neg n1, if_neg n2, if_neg n3, if_neg n4, if_neg n5, if_neg n6, if_neg n7, if_neg n8,
      if_neg n9, if_neg n10, if_neg n11, if_neg n12, if_neg n13, if_neg n14, dif_neg hOptn,
      dif_neg hVecn, dif_pos hArr] at h
    dsimp only [] at h
    have hSplit' : List.dropWhile (fun c => c != ';') ((List.drop 1 t).dropLast) = hd :: p1 :=
      hSplit
    rw [hSplit'] at h
    dsimp only [] at h
    rw [if_pos hIn] at h
    simp at h
  case case29 =>
    intro data t n1 n2 n3 n4 n5 n6 n7 n8 n9 n10 n11 n12 n13 n14 hOptn hVecn hArr body hd p1 hSplit hNotIn hParse v n h
    rw [IdlEventDecoder.decode_simple_type.eq_def] at h
    rw [if_neg n1, if_neg n2, if_neg n3, if_neg n4, if_neg n5, if_neg n6, if_neg n7, if_neg n8,
      if_neg n9, if_neg n10, if_neg n11, if_neg n12, if_neg n13, if_neg n14, dif_neg hOptn,
      dif_neg hVecn, dif_pos hArr] at h
    dsimp only [] at h
    have hSplit' : List.dropWhile (fun c => c != ';') ((List.drop 1 t).dropLast) = hd :: p1 :=
      hSplit
    rw [hSplit'] at h
    dsimp only [] at h
    rw [if_neg hNotIn] at h
    have hParse' : parseUsize (rustTrim p1) = none := hParse
    rw [hParse'] at h
    simp at h
  case case30 =>
    intro data t n1 n2 n3 n4 n5 n6 n7 n8 n9 n10 n11 n12 n13 n14 hOptn hVecn hArr body p0 hd p1 hSplit hNotIn len hParse ihgo v n h
    rw [IdlEventDecoder.decode_simple_type.eq_def] at h
    rw [if_neg n1, if_neg n2, if_neg n3, if_neg n4, if_neg n5, if_neg n6, if_neg n7, if_neg n8,
      if_neg n9, if_neg n10, if_neg n11, if_neg n12, if_neg n13, if_neg n14, dif_neg hOptn,
      dif_neg hVecn, dif_pos hArr] at h
    dsimp only [] at h
    have hSplit' : List.dropWhile (fun c => c != ';') ((List.drop 1 t).dropLast) = hd :: p1 :=
      hSplit
    rw [hSplit'] at h
    dsimp only [] at h
    rw [if_neg hNotIn] at h
    have hParse' : parseUsize (rustTrim p1) = some len := hParse
    rw [hParse'] at h
    dsimp only [] at h
    obtain ⟨⟨vs, off⟩, hr, hc⟩ := mapE_ok h
    have hn := congrArg Prod.snd hc
    simp at hn
    have := ihgo vs off hr (Nat.zero_le _)
    omega
  case case31 =>
    intro data t n1 n2 n3 n4 n5 n6 n7 n8 n9 n10 n11 n12 n13 n14 hOptn hVecn hArr body hNone v n h
    rw [IdlEventDecoder.decode_simple_type.eq_def] at h
    rw [if_neg n1, if_neg n2, if_neg n3, if_neg n4, if_neg n5, if_neg n6, if_neg n7, if_neg n8,
      if_neg n9, if_neg n10, if_neg n11, if_neg n12, if_neg n13, if_neg n14, dif_neg hOptn,
      dif_neg hVecn, dif_pos hArr] at h
    dsimp only [] at h
    split at h
    next hd p1 heq => exact (hNone hd p1 heq).elim
    next => simp at h
  case case32 =>
    intro data t n1 n2 n3 n4 n5 n6 n7 n8 n9 n10 n11 n12 n13 n14 hOptn hVecn hArrn v n h
    rw [IdlEventDecoder.decode_simple_type.eq_def] at h
    rw [if_neg n1, if_neg n2, if_neg n3, if_neg n4, if_neg n5, if_neg n6, if_neg n7, if_neg n8,
      if_neg n9, if_neg n10, if_neg n11, if_neg n12, if_neg n13, if_neg n14, dif_neg hOptn,
      dif_neg hVecn, dif_neg hArrn] at h
    simp at h
  case case33 =>
    intro data inner total vs off h htot
    rw [IdlEventDecoder.decode_str_array_go.eq_def] at h
    simp only [Except.ok.injEq, Prod.mk.injEq] at h
    omega
  case case34 =>
    intro data inner total k e hferr ihf vs off h htot
    rw [IdlEventDecoder.decode_str_array_go.eq_def] at h
    dsimp only [] at h
    rw [hferr] at h
    simp at h
  case case35 =>
    intro data inner total k value bytes_read hfok ihf ihgo vs off h htot
    rw [IdlEventDecoder.decode_str_array_go.eq_def] at h
    dsimp only [] at h
    rw [hfok] at h
    dsimp only [] at h
    obtain ⟨⟨vs', off'⟩, hr, hc⟩ := mapE_ok h
    have hoff := congrArg Prod.snd hc
    simp at hoff
    have hbr := ihf value bytes_read hfok
    simp at hbr
    have := ihgo vs' off' hr (by omega)
    omega
  case case36 =>
    intro data inner hlt vs n h
    rw [IdlEventDecoder.decode_vec.eq_def] at h
    rw [if_pos hlt] at h
    simp at h
  case case37 =>
    intro data inner hnlt ihgo vs n h
    rw [IdlEventDecoder.decode_vec.eq_def] at h
    rw [if_neg hnlt] at h
    exact ihgo vs n h (by omega)
  case case38 =>
    intro data inner total vs off h htot
    rw [IdlEventDecoder.decode_vec_go.eq_def] at h
    simp only [Except.ok.injEq, Prod.mk.injEq] at h
    omega
  case case39 =>
    intro data inner total k e hferr ihf vs off h htot
    rw [IdlEventDecoder.decode_vec_go.eq_def] at h
    dsimp only [] at h
    rw [hferr] at h
    simp at h
  case case40 =>
    intro data inner total k value bytes_read hfok ihf ihgo vs off h htot
    rw [IdlEventDecoder.decode_vec_go.eq_def] at h
    dsimp only [] at h
    rw [hfok] at h
    dsimp only [] at h
    obtain ⟨⟨vs', off'⟩, hr, hc⟩ := mapE_ok h
    have hoff := congrArg Prod.snd hc
    simp at hoff
    have hbr := ihf value bytes_read hfok
    simp at hbr
    have := ihgo vs' off' hr (by omega)
    omega
  case case41 =>
    intro data kvs istr nI hA hRange ihfa v n h
    rw [dct_array hA] at h
    rw [if_pos hRange] at h
    exact ihfa v n h
  case case42 =>
    intro data kvs istr nI hA hRange v n h
    rw [dct_array hA] at h
    rw [if_neg hRange] at h
    exact (complex_type_fallthrough_ok_false h).elim
  case case43 =>
    intro data kvs hNone v n h
    rw [IdlEventDecoder.decode_complex_type.eq_def] at h
    split at h
    next istr' n' hA' => exact (hNone istr' n' hA').elim
    next => exact (complex_type_fallthrough_ok_false h).elim
  case case44 =>
    intro data inner size ihgo v n h
    rw [IdlEventDecoder.decode_fixed_array.eq_def] at h
    obtain ⟨⟨vs, off⟩, hr, hc⟩ := mapE_ok h
    have hn := congrArg Prod.snd hc
    simp at hn
    have := ihgo vs off hr (Nat.zero_le _)
    omega
  case case45 =>
    intro data inner offset vs off h hoff
    rw [IdlEventDecoder.decode_fixed_array_go.eq_def] at h
    simp only [Except.ok.injEq, Prod.mk.injEq] at h
    omega
  case case46 =>
    intro data inner offset k e hserr ihs vs off h hoff
    rw [IdlEventDecoder.decode_fixed_array_go.eq_def] at h
    dsimp only [] at h
    rw [hserr] at h
    simp at h
  case case47 =>
    intro data inner offset k value bytes_read hsok ihs ihgo vs off h hoff
    rw [IdlEventDecoder.decode_fixed_array_go.eq_def] at h
    dsimp only [] at h
    rw [hsok] at h
    dsimp only [] at h
    obtain ⟨⟨vs', off'⟩, hr, hc⟩ := mapE_ok h
    have hofff := congrArg Prod.snd hc
    simp at hofff
    have hbs := ihs value bytes_read hsok
    simp at hbs
    have := ihgo vs' off' hr (by omega)
    omega

/-- Helper: the field loop of `IdlEventDecoder::decode` keeps its cursor
within the payload. -/
theorem decode_fields_go_le (data : List Nat) :
    ∀ (fields : List IdlField') (offset : Nat) (acc : List (List Char × Json))
      (m : List (List Char × Json)) (off : Nat),
      IdlEventDecoder.decode_fields_go data fields offset acc = .ok (m, off) →
      offset ≤ data.length → off ≤ data.length := by
  intro fields
  induction fields with
  | nil =>
    intro offset acc m off h hoff
    unfold IdlEventDecoder.decode_fields_go at h
    simp only [Except.ok.injEq, Prod.mk.injEq] at h
    omega
  | cons f rest ih =>
    intro offset acc m off h hoff
    unfold IdlEventDecoder.decode_fields_go at h
    cases hf : IdlEventDecoder.decode_field data offset f.field_type with
    | error e => rw [hf] at h; simp at h
    | ok p =>
      obtain ⟨value, br⟩ := p
      rw [hf] at h
      dsimp only [] at h
      have hb := decoder_consumed_le.1 data offset f.field_type value br hf
      simp only [List.length_drop] at hb
      exact ih (offset + br) _ m off h (by omega)

/-- Claim C9 counterexample: the source is not panic-free.  The field
type string `[u8; 18446744073709551615]` passes the array-branch guard of
`decode_simple_type` and its declared length parses as a `usize`, so for
every payload — the empty one included — control reaches
`Vec::with_capacity(18446744073709551615)` at idl_event.rs:158 before any
element or bounds check; the same length in the complex form
`{"array": ["u8", 18446744073709551615]}` reaches the identical
reservation at the entry of `decode_fixed_array` (idl_event.rs:216).
That reservation's layout, `18446744073709551615 * 32` bytes, exceeds
`isize::MAX`, so Rust deterministically panics with "capacity overflow"
where the claim requires an `Ok` or `Err` return.  (The value-level model
elides the reservation and returns a decode error on such inputs, so it
is strictly tamer than the program here.) -/
theorem claim_C9_counterexample :
    arr_reserve ("[u8; 18446744073709551615]".toList) = some 18446744073709551615 ∧
    dct_reserve [("array".toList,
        Json.arr [Json.str ("u8".toList), Json.num 18446744073709551615])] =
      some 18446744073709551615 ∧
    capacity_overflow 18446744073709551615 = true :=
  ⟨rfl, rfl, rfl⟩

/-- Claim C9, amended: the in-bounds half of the claim holds — a
successful `decode_field` never reports more consumed bytes than its
re-sliced input holds, and the cursor of the field loop started at 0 never
exceeds the payload length, so every slice the source takes of the
*payload* is within bounds — but the no-panic half must except the eager
reservations: the two fixed-array branches call `Vec::with_capacity` on
the schema-declared element count before decoding anything, and that call
panics with "capacity overflow" exactly when the count reaches `2 ^ 58`
(32 bytes per `serde_json::Value` times the count then exceeds
`isize::MAX`). -/
theorem claim_C9_amended :
    (∀ (data : List Nat) (offset : Nat) (ft : Json) (v : Json) (n : Nat),
        IdlEventDecoder.decode_field data offset ft = .ok (v, n) →
        n ≤ (data.drop offset).length) ∧
    (∀ (data : List Nat) (fields : List IdlField') (m : List (List Char × Json)) (off : Nat),
        IdlEventDecoder.decode_fields_go data fields 0 [] = .ok (m, off) →
        off ≤ data.length) ∧
    (∀ n : Nat, capacity_overflow n = true ↔ 2 ^ 58 ≤ n) := by
  refine ⟨decoder_consumed_le.1,
    fun data fields m off h => decode_fields_go_le data fields 0 [] m off h (Nat.zero_le _),
    fun n => ?_⟩
  unfold capacity_overflow serde_value_size
  rw [decide_eq_true_eq]
  have h58 : (2 : Nat) ^ 58 = 288230376151711744 := by norm_num
  rw [h58]
  omega

/-- Claim C9 witness: the consumed-bytes bound of the amended theorem
evaluated on a concrete two-byte payload and a `u8` field. -/
theorem claim_C9_witness :
    (1 : Nat) ≤ ((([7, 9] : List Nat)).drop 0).length :=
  claim_C9_amended.1 [7, 9] 0 (Json.str ("u8".toList)) (Json.num 7) 1
    (by rw [df_str, dst_u8]; rfl)

/-- Claim C3: a successfully decoded integer field's JSON shape depends
only on the width — `u8/u16/u32/i8/i16/i32` become JSON numbers carrying
the read value, while `u64/u128/i64/i128` become the decimal-string
rendering of the read value; and the concrete payload
`2A 00 00 00 | FF FF FF FF FF FF FF FF` against fields
`[{a: u32}, {b: u64}]` decodes to
`{a: 42, b: "18446744073709551615"}`. -/
theorem claim_C3 :
    (∀ (data : List Nat) (v : Json) (n : Nat),
        IdlEventDecoder.decode_simple_type data ("u8".toList) = .ok (v, n) →
        ∃ m : Nat, v = Json.num m ∧ read_le_bytes data 1 255 = .ok (m, n)) ∧
    (∀ (data : List Nat) (v : Json) (n : Nat),
        IdlEventDecoder.decode_simple_type data ("u16".toList) = .ok (v, n) →
        ∃ m : Nat, v = Json.num m ∧ read_le_bytes data 2 65535 = .ok (m, n)) ∧
    (∀ (data : List Nat) (v : Json) (n : Nat),
        IdlEventDecoder.decode_simple_type data ("u32".toList) = .ok (v, n) →
        ∃ m : Nat, v = Json.num m ∧ read_le_bytes data 4 4294967295 = .ok (m, n)) ∧
    (∀ (data : List Nat) (v : Json) (n : Nat),
        IdlEventDecoder.decode_simple_type data ("i8".toList) = .ok (v, n) →
        ∃ m : Nat, v = Json.num m ∧ read_le_bytes data 1 127 = .ok (m, n)) ∧
    (∀ (data : List Nat) (v : Json) (n : Nat),
        IdlEventDecoder.decode_simple_type data ("i16".toList) = .ok (v, n) →
        ∃ m : Nat, v = Json.num m ∧ read_le_bytes data 2 32767 = .ok (m, n)) ∧
    (∀ (data : List Nat) (v : Json) (n : Nat),
        IdlEventDecoder.decode_simple_type data ("i32".toList) = .ok (v, n) →
        ∃ m : Nat, v = Json.num m ∧ read_le_bytes data 4 2147483647 = .ok (m, n)) ∧
    (∀ (data : List Nat) (v : Json) (n : Nat),
        IdlEventDecoder.decode_simple_type data ("u64".toList) = .ok (v, n) →
        ∃ m : Nat, v = Json.str (natToDec m) ∧
          read_le_bytes data 8 18446744073709551615 = .ok (m, n)) ∧
    (∀ (data : List Nat) (v : Json) (n : Nat),
        IdlEventDecoder.decode_simple_type data ("u128".toList) = .ok (v, n) →
        ∃ m : Nat, v = Json.str (natToDec m) ∧
          read_le_bytes data 16 340282366920938463463374607431768211455 = .ok (m, n)) ∧
    (∀ (data : List Nat) (v : Json) (n : Nat),
        IdlEventDecoder.decode_simple_type data ("i64".toList) = .ok (v, n) →
        ∃ m : Nat, v = Json.str (natToDec m) ∧
          read_le_bytes data 8 9223372036854775807 = .ok (m, n)) ∧
    (∀ (data : List Nat) (v : Json) (n : Nat),
        IdlEventDecoder.decode_simple_type data ("i128".toList) = .ok (v, n) →
        ∃ m : Int, v = Json.str (intToDec m) ∧ read_i128 data = .ok (m, n)) ∧
    IdlEventDecoder.decode [0x2A, 0, 0, 0, 0xFF, 0xFF, 0xFF, 0xFF, 0xFF, 0xFF, 0xFF, 0xFF]
        [⟨"a".toList, Json.str ("u32".toList)⟩, ⟨"b".toList, Json.str ("u64".toList)⟩] =
      .ok (Json.obj
        [("a".toList, Json.num 42),
         ("b".toList, Json.str ("18446744073709551615".toList))]) := by
  refine ⟨?_, ?_, ?_, ?_, ?_, ?_, ?_, ?_, ?_, ?_, ?_⟩
  · intro data v n h
    rw [dst_u8] at h
    obtain ⟨⟨m, sz⟩, hr, hc⟩ := mapE_ok h
    simp only [Prod.mk.injEq] at hc
    exact ⟨m, hc.1, by rw [hr, hc.2]⟩
  · intro data v n h
    rw [dst_u16] at h
    obtain ⟨⟨m, sz⟩, hr, hc⟩ := mapE_ok h
    simp only [Prod.mk.injEq] at hc
    exact ⟨m, hc.1, by rw [hr, hc.2]⟩
  · intro data v n h
    rw [dst_u32] at h
    obtain ⟨⟨m, sz⟩, hr, hc⟩ := mapE_ok h
    simp only [Prod.mk.injEq] at hc
    exact ⟨m, hc.1, by rw [hr, hc.2]⟩
  · intro data v n h
    rw [dst_i8] at h
    obtain ⟨⟨m, sz⟩, hr, hc⟩ := mapE_ok h
    simp only [Prod.mk.injEq] at hc
    exact ⟨m, hc.1, by rw [hr, hc.2]⟩
  · intro data v n h
    rw [dst_i16] at h
    obtain ⟨⟨m, sz⟩, hr, hc⟩ := mapE_ok h
    simp only [Prod.mk.injEq] at hc
    exact ⟨m, hc.1, by rw [hr, hc.2]⟩
  · intro data v n h
    rw [dst_i32] at h
    obtain ⟨⟨m, sz⟩, hr, hc⟩ := mapE_ok h
    simp only [Prod.mk.injEq] at hc
    exact ⟨m, hc.1, by rw [hr, hc.2]⟩
  · intro data v n h
    rw [dst_u64] at h
    obtain ⟨⟨m, sz⟩, hr, hc⟩ := mapE_ok h
    simp only [Prod.mk.injEq] at hc
    exact ⟨m, hc.1, by rw [hr, hc.2]⟩
  · intro data v n h
    rw [dst_u128] at h
    obtain ⟨⟨m, sz⟩, hr, hc⟩ := mapE_ok h
    simp only [Prod.mk.injEq] at hc
    exact ⟨m, hc.1, by rw [hr, hc.2]⟩
  · intro data v n h
    rw [dst_i64] at h
    obtain ⟨⟨m, sz⟩, hr, hc⟩ := mapE_ok h
    simp only [Prod.mk.injEq] at hc
    exact ⟨m, hc.1, by rw [hr, hc.2]⟩
  · intro data v n h
    rw [dst_i128] at h
    obtain ⟨⟨m, sz⟩, hr, hc⟩ := mapE_ok h
    simp only [Prod.mk.injEq] at hc
    exact ⟨m, hc.1, by rw [hr, hc.2]⟩
  · simp only [IdlEventDecoder.decode, IdlEventDecoder.decode_fields_go, df_str, dst_u32, dst_u64]
    norm_num [read_le_bytes, leNat, mapInsert]
    rfl

/-- Claim C3 witness: the `u64` conjunct evaluated on the all-ones
payload. -/
theorem claim_C3_witness :
    ∃ m : Nat, Json.str ("18446744073709551615".toList) = Json.str (natToDec m) ∧
      read_le_bytes [0xFF, 0xFF, 0xFF, 0xFF, 0xFF, 0xFF, 0xFF, 0xFF] 8 18446744073709551615 =
        .ok (m, 8) :=
  claim_C3.2.2.2.2.2.2.1 [0xFF, 0xFF, 0xFF, 0xFF, 0xFF, 0xFF, 0xFF, 0xFF]
    (Json.str ("18446744073709551615".toList)) 8 (by rw [dst_u64]; rfl)

/-- Claim C4: if `IdlEventDecoder::decode` returns a structured value, the
field loop consumed exactly the payload length; and if the loop succeeds
with a cursor different from the payload length, `decode` returns the
data-length-mismatch error instead of a value. -/
theorem claim_C4 (data : List Nat) (fields : List IdlField') :
    (∀ v, IdlEventDecoder.decode data fields = .ok v →
      ∃ m, IdlEventDecoder.decode_fields_go data fields 0 [] = .ok (m, data.length)) ∧
    (∀ m offset, IdlEventDecoder.decode_fields_go data fields 0 [] = .ok (m, offset) →
      offset ≠ data.length →
      IdlEventDecoder.decode data fields =
        .error ((("Data length mismatch: decoded ".toList ++ natToDec offset) ++
                 " bytes, but data is ".toList ++ natToDec data.length) ++ " bytes".toList)) := by
  constructor
  · intro v h
    unfold IdlEventDecoder.decode at h
    cases hg : IdlEventDecoder.decode_fields_go data fields 0 [] with
    | error e => rw [hg] at h; simp at h
    | ok p =>
      obtain ⟨m, off⟩ := p
      rw [hg] at h
      dsimp only [] at h
      by_cases ho : off ≠ data.length
      · rw [if_pos ho] at h
        simp at h
      · rw [if_neg ho] at h
        push_neg at ho
        exact ⟨m, by rw [ho]⟩

  · intro m offset hg hne
    unfold IdlEventDecoder.decode
    rw [hg]
    dsimp only []
    rw [if_pos hne]

/-- Claim C4 witness: the mismatch half evaluated on a two-byte payload
with a single `u8` field (one byte consumed, two present). -/
theorem claim_C4_witness :
    IdlEventDecoder.decode [1, 2] [⟨"x".toList, Json.str ("u8".toList)⟩] =
      .error ((("Data length mismatch: decoded ".toList ++ natToDec 1) ++
               " bytes, but data is ".toList ++ natToDec 2) ++ " bytes".toList) :=
  (claim_C4 [1, 2] [⟨"x".toList, Json.str ("u8".toList)⟩]).2 [("x".toList, Json.num 1)] 1
    (by simp only [IdlEventDecoder.decode_fields_go, df_str, dst_u8]
        norm_num [read_le_bytes, leNat, mapInsert]
        rfl)
    (by decide)

/-- Claim C5: when the payload's first eight bytes match a declared
event's discriminator but the remainder fails to decode against the
declared fields, the orchestrator still returns a successful
`DecodedEvent` whose name carries the declared name (behind the program
tag) and whose data is exactly the fallback object with the keys `hex`
(upper-case hex of the post-discriminator payload), `length`,
`decode_error`, `event_name`, `field_count`, and `timestamp` — no
valid-discriminator event is dropped by a decode error. -/
theorem claim_C5 (d : EventDecoder') (pid sig : List Char) (data : List Nat) (now : List Char)
    (event_def : IdlEventDefinition') (e : List Char)
    (hlen : 8 ≤ data.length)
    (hf : IdlParser.find_event_by_discriminator d.idl_registry pid (data.take 8) = some event_def)
    (hd : IdlEventDecoder.decode (data.drop 8) (event_def.fields.getD []) = .error e) :
    EventDecoder'.decode_event d pid sig data now =
      .ok ⟨(program_tag d.prefix_config pid ++ "_".toList) ++ event_def.name,
        Json.obj
          [("hex".toList, Json.str (hexUpper (data.drop 8))),
           ("length".toList, Json.num (data.drop 8).length),
           ("decode_error".toList, Json.str e),
           ("event_name".toList, Json.str event_def.name),
           ("field_count".toList, Json.num (event_def.fields.getD []).length),
           ("timestamp".toList, Json.str now)],
        data.take 8⟩ := by
  unfold EventDecoder'.decode_event
  rw [if_neg (by omega)]
  dsimp only []
  rw [hf]
  dsimp only []
  unfold EventDecoder'.decode_event_data
  dsimp only []
  rw [hd]

/-- A one-event registry used by the orchestrator witnesses: program `P`
declares event `Evt` with a single `u64` field. -/
def cRegistry : IdlRegistry :=
  [("P".toList, ⟨[⟨"Evt".toList, some [⟨"a".toList, Json.str ("u64".toList)⟩], none⟩], none⟩)]

set_option maxRecDepth 40000 in
/-- Claim C5 witness: a payload carrying `Evt`'s discriminator followed by
three bytes (spec scenario 5) yields the fallback record. -/
theorem claim_C5_witness :
    EventDecoder'.decode_event ⟨cRegistry, ProgramPrefixConfig'.new⟩ ("P".toList) ("sig".toList)
        (IdlParser.calculate_discriminator ("Evt".toList) ++ [1, 2, 3]) ("now".toList) =
      .ok ⟨(program_tag ProgramPrefixConfig'.new ("P".toList) ++ "_".toList) ++ "Evt".toList,
        Json.obj
          [("hex".toList,
            Json.str (hexUpper ((IdlParser.calculate_discriminator ("Evt".toList) ++
              [1, 2, 3]).drop 8))),
           ("length".toList,
            Json.num ((IdlParser.calculate_discriminator ("Evt".toList) ++ [1, 2, 3]).drop 8).length),
           ("decode_error".toList, Json.str ("Not enough data for integer".toList)),
           ("event_name".toList, Json.str ("Evt".toList)),
           ("field_count".toList,
            Json.num (((⟨"Evt".toList, some [⟨"a".toList, Json.str ("u64".toList)⟩], none⟩ :
              IdlEventDefinition').fields).getD []).length),
           ("timestamp".toList, Json.str ("now".toList))],
        (IdlParser.calculate_discriminator ("Evt".toList) ++ [1, 2, 3]).take 8⟩ :=
  claim_C5 ⟨cRegistry, ProgramPrefixConfig'.new⟩ ("P".toList) ("sig".toList)
    (IdlParser.calculate_discriminator ("Evt".toList) ++ [1, 2, 3]) ("now".toList)
    ⟨"Evt".toList, some [⟨"a".toList, Json.str ("u64".toList)⟩], none⟩
    ("Not enough data for integer".toList)
    (by
      have h8 := (claim_C2 ("Evt".toList)).2
      simp only [List.length_append]
      omega)
    (by rfl)
    (by
      have h8 := (claim_C2 ("Evt".toList)).2
      rw [show ((⟨"Evt".toList, some [⟨"a".toList, Json.str ("u64".toList)⟩], none⟩ :
          IdlEventDefinition').fields).getD [] = [⟨"a".toList, Json.str ("u64".toList)⟩] from rfl]
      rw [← h8, List.drop_left]
      simp only [IdlEventDecoder.decode, IdlEventDecoder.decode_fields_go, df_str, dst_u64]
      norm_num [read_le_bytes]
      rfl)

/-- Claim C10: for every program id absent from the prefix mapping of a
configuration built with `ProgramPrefixConfig::new()` (whose default
prefix is `"default"`), a successful `decode_event` returns an
`event_name` equal to `default_` followed by the declared event name — the
raw unprefixed name is never stored as-is. -/
theorem claim_C10 (idls : IdlRegistry) (m : List (List Char × List Char))
    (pid sig : List Char) (data : List Nat) (now : List Char) (ev : DecodedEvent')
    (hm : mappingLookup m pid = none)
    (h : EventDecoder'.decode_event ⟨idls, ⟨"default".toList, m⟩⟩ pid sig data now = .ok ev) :
    ∃ event_def,
      IdlParser.find_event_by_discriminator idls pid (data.take 8) = some event_def ∧
      ev.event_name = ("default_".toList) ++ event_def.name := by
  unfold EventDecoder'.decode_event at h
  by_cases hlen : data.length < 8
  · rw [if_pos hlen] at h
    simp at h
  · rw [if_neg hlen] at h
    dsimp only [] at h
    cases hf : IdlParser.find_event_by_discriminator idls pid (data.take 8) with
    | none => rw [hf] at h; simp at h
    | some event_def =>
      rw [hf] at h
      dsimp only [] at h
      refine ⟨event_def, rfl, ?_⟩
      have hev := Except.ok.inj h
      rw [← hev]
      dsimp only []
      unfold program_tag
      rw [hm]
      rfl

set_option maxRecDepth 40000 in
/-- Claim C10 witness: a one-event registry with no prefix mapping decodes
an `Evt`-discriminated empty payload to the event name `default_Evt`. -/
theorem claim_C10_witness :
    ∃ event_def,
      IdlParser.find_event_by_discriminator
          [("P".toList, ⟨[⟨"Evt".toList, some [], none⟩], none⟩)] ("P".toList)
          ((IdlParser.calculate_discriminator ("Evt".toList)).take 8) = some event_def ∧
      (⟨("default".toList ++ "_".toList) ++ "Evt".toList, Json.obj [],
        IdlParser.calculate_discriminator ("Evt".toList)⟩ : DecodedEvent').event_name =
        ("default_".toList) ++ event_def.name :=
  claim_C10 [("P".toList, ⟨[⟨"Evt".toList, some [], none⟩], none⟩)] [] ("P".toList)
    ("sig".toList) (IdlParser.calculate_discriminator ("Evt".toList)) ("now".toList)
    ⟨("default".toList ++ "_".toList) ++ "Evt".toList, Json.obj [],
      IdlParser.calculate_discriminator ("Evt".toList)⟩
    (by rfl)
    (by rfl)
